import Mathlib

/-
Verification development for a small Python-subset lexer and parser
(TypeScript sources: `Lexer.ts` in two variants and `Parser.ts`).

The lexer scans with an ordered, fixed-priority pattern list (JavaScript
regexes, all anchored with `^`); each regex is embedded here as an
executable matcher on `List Char` that reproduces the regex's
deterministic first-alternative / greedy-or-lazy behaviour on the exact
patterns used by the source.  The parser is a recursive-descent parser
whose `throw` sites are embedded with `Except`; the top-level loop
catches every raised failure and runs panic-mode recovery.

Loops (`tokenize`'s while, `parse`'s while, `synchronize`'s while, the
newline-skipping whiles) are embedded with an explicit fuel argument so
that all definitions are structurally recursive and kernel-evaluable;
every wrapper passes fuel `length + 1 - cursor`, which is sufficient
because each iteration of the corresponding source loop strictly
advances the cursor (this sufficiency is also what the fuel-invariant
lemmas below prove).
-/

/-- The `TokenType` enum from `types/TokenType.ts`. -/
inductive TokenType where
  | KEYWORD | IDENTIFIER | INTEGER | FLOAT | STRING | BOOLEAN | NONE
  | ARITHMETIC_OPERATOR | ASSIGNMENT_OPERATOR | COMPARISON_OPERATOR
  | LOGICAL_OPERATOR | BITWISE_OPERATOR | MEMBERSHIP_OPERATOR | IDENTITY_OPERATOR
  | LPAREN | RPAREN | LBRACKET | RBRACKET | LBRACE | RBRACE
  | COMMA | COLON | SEMICOLON | DOT | ARROW
  | INDENT | DEDENT | NEWLINE | COMMENT | ERROR | EOF | UNKNOWN
deriving DecidableEq, Repr

/-- The embedded lexical-error detail on a token (`tokens/Token.ts`):
`error?: { message: string; suggestion?: string }`. -/
structure ErrorInfo where
  message : String
  suggestion : Option String
deriving DecidableEq, Repr

/-- The `Token` from `tokens/Token.ts`. `line`/`column` are `Int` because the
parser's out-of-range default token uses `-1`. -/
structure Token where
  type : TokenType
  value : String
  line : Int
  column : Int
  error : Option ErrorInfo
deriving DecidableEq, Repr

/-- JavaScript `x || default` on an optional string: `undefined` and the
empty string are both falsy. -/
def strOr (o : Option String) (d : String) : String :=
  match o with
  | some s => if s = "" then d else s
  | none => d

/-- Char class `[ \t]` (whitespace pattern). -/
def isWsChar (c : Char) : Bool := decide (c = ' ' ∨ c = '\t')

/-- JavaScript line terminators, excluded by the regex `.` metacharacter. -/
def isLineTermChar (c : Char) : Bool :=
  decide (c = '\n' ∨ c = '\r' ∨ c = '\u2028' ∨ c = '\u2029')

/-- Char class `\d` = `[0-9]`. -/
def isDigitChar (c : Char) : Bool := decide ('0' ≤ c ∧ c ≤ '9')

/-- Char class `[01]`. -/
def isBinDigitChar (c : Char) : Bool := decide (c = '0' ∨ c = '1')

/-- Char class `[0-7]`. -/
def isOctDigitChar (c : Char) : Bool := decide ('0' ≤ c ∧ c ≤ '7')

/-- Char class `[0-9a-fA-F]`. -/
def isHexDigitChar (c : Char) : Bool :=
  isDigitChar c || decide (('a' ≤ c ∧ c ≤ 'f') ∨ ('A' ≤ c ∧ c ≤ 'F'))

/-- Char class `[a-zA-Z_]`. -/
def isIdentStartChar (c : Char) : Bool :=
  decide (('a' ≤ c ∧ c ≤ 'z') ∨ ('A' ≤ c ∧ c ≤ 'Z') ∨ c = '_')

/-- Char class `[a-zA-Z0-9_]`. -/
def isIdentTailChar (c : Char) : Bool := isIdentStartChar c || isDigitChar c

/-- The `^[ \t]+`: longest non-empty whitespace prefix. -/
def matchWs (rest : List Char) : Option (List Char) :=
  let v := rest.takeWhile isWsChar
  if v.isEmpty then none else some v

/-- The `^\n`. -/
def matchNewline : List Char → Option (List Char)
  | '\n' :: _ => some ['\n']
  | _ => none

/-- The `^#.*` (greedy `.` stops at a line terminator). -/
def matchComment : List Char → Option (List Char)
  | '#' :: cs => some ('#' :: cs.takeWhile (fun c => !isLineTermChar c))
  | _ => none

/-- Helper for the lazy `[^]*?` of the docstring regex: consume up to and
including the first occurrence of the closing triple quote. -/
def tripleClose (q : Char) : List Char → Option (List Char)
  | c1 :: c2 :: c3 :: rest =>
    if c1 = q ∧ c2 = q ∧ c3 = q then some [q, q, q]
    else (tripleClose q (c2 :: c3 :: rest)).map (c1 :: ·)
  | _ => none

/-- The `^"""[^]*?"""` (and the `'''` form): opening triple quote, then lazily
up to the first closing triple quote. -/
def matchTriple (q : Char) (rest : List Char) : Option (List Char) :=
  match rest with
  | c1 :: c2 :: c3 :: rest' =>
    if c1 = q ∧ c2 = q ∧ c3 = q then (tripleClose q rest').map ([q, q, q] ++ ·)
    else none
  | _ => none

/-- Body of `^'([^'\\]|\\.)*'`: after the opening quote, elements are a
single char that is neither the quote nor a backslash, or a backslash
followed by any non-line-terminator; the match closes at the first
unescaped quote.  The regex is deterministic on every input because at
each position at most one alternative can apply and no element can
consume the closing quote. -/
def quotedBody (q : Char) : List Char → Option (List Char)
  | [] => none
  | c :: cs =>
    if c = q then some [c]
    else if c = '\\' then
      match cs with
      | [] => none
      | d :: ds => if isLineTermChar d then none
                   else (quotedBody q ds).map (fun t => c :: d :: t)
    else (quotedBody q cs).map (c :: ·)

/-- The `^'([^'\\]|\\.)*'` (and the `"` form). -/
def matchQuoted (q : Char) (rest : List Char) : Option (List Char) :=
  match rest with
  | c :: cs => if c = q then (quotedBody q cs).map (c :: ·) else none
  | _ => none

/-- The optional exponent `([eE][-+]?\d+)?` used by the float patterns;
`none` means the optional group matched the empty string. -/
def matchExpPart : List Char → Option (List Char)
  | e :: rest =>
    if e = 'e' ∨ e = 'E' then
      match rest with
      | s :: r2 =>
        if s = '+' ∨ s = '-' then
          let d := r2.takeWhile isDigitChar
          if d.isEmpty then none else some (e :: s :: d)
        else
          let d := (s :: r2).takeWhile isDigitChar
          if d.isEmpty then none else some (e :: d)
      | [] => none
    else none
  | [] => none

/-- The `^\d+\.\d+([eE][-+]?\d+)?`. -/
def matchFloatDot (rest : List Char) : Option (List Char) :=
  let d1 := rest.takeWhile isDigitChar
  if d1.isEmpty then none
  else
    match rest.drop d1.length with
    | '.' :: r2 =>
      let d2 := r2.takeWhile isDigitChar
      if d2.isEmpty then none
      else some (d1 ++ '.' :: d2 ++ (matchExpPart (r2.drop d2.length)).getD [])
    | _ => none

/-- The `^\d+[eE][-+]?\d+`. -/
def matchFloatExp (rest : List Char) : Option (List Char) :=
  let d1 := rest.takeWhile isDigitChar
  if d1.isEmpty then none
  else
    match matchExpPart (rest.drop d1.length) with
    | some e => some (d1 ++ e)
    | none => none

/-- The `^0[bB][01]+` / `^0[oO][0-7]+` / `^0[xX][0-9a-fA-F]+`. -/
def matchRadix (b1 b2 : Char) (p : Char → Bool) : List Char → Option (List Char)
  | '0' :: c :: rest =>
    if c = b1 ∨ c = b2 then
      let d := rest.takeWhile p
      if d.isEmpty then none else some ('0' :: c :: d)
    else none
  | _ => none

/-- The `^\d+`. -/
def matchDigits (rest : List Char) : Option (List Char) :=
  let d := rest.takeWhile isDigitChar
  if d.isEmpty then none else some d

/-- A regex alternation of literal strings, tried in listed order
(JavaScript alternation is first-match, left to right). -/
def matchLits (alts : List (List Char)) (rest : List Char) : Option (List Char) :=
  alts.findSome? (fun a => if a.isPrefixOf rest then some a else none)

/-- A single literal symbol. -/
def matchSym (c : Char) : List Char → Option (List Char)
  | x :: _ => if x = c then some [c] else none
  | _ => none

/-- The `^[a-zA-Z_][a-zA-Z0-9_]*`. -/
def matchIdent : List Char → Option (List Char)
  | c :: cs =>
    if isIdentStartChar c then some (c :: cs.takeWhile isIdentTailChar) else none
  | _ => none

/-- The `^(\+=|-=|\*=|%=|&=|\|=|\^=|<<=|>>=|\*\*=|\/\/=)` alternatives, in
the source's listed order. -/
def assignOps : List (List Char) :=
  [['+', '='], ['-', '='], ['*', '='], ['%', '='], ['&', '='], ['|', '='],
   ['^', '='], ['<', '<', '='], ['>', '>', '='], ['*', '*', '='], ['/', '/', '=']]

/-- The `^(\+|\-|\*|%|\*\*|\/\/)` alternatives. -/
def arithOps : List (List Char) :=
  [['+'], ['-'], ['*'], ['%'], ['*', '*'], ['/', '/']]

/-- The `^(==|!=|<=|>=|<|>)` alternatives. -/
def compOps : List (List Char) :=
  [['=', '='], ['!', '='], ['<', '='], ['>', '='], ['<'], ['>']]

/-- The `^(and|or|not)` alternatives. -/
def logicalOps : List (List Char) :=
  [['a', 'n', 'd'], ['o', 'r'], ['n', 'o', 't']]

/-- The `^(&|\||\^|~|<<|>>)` alternatives. -/
def bitwiseOps : List (List Char) :=
  [['&'], ['|'], ['^'], ['~'], ['<', '<'], ['>', '>']]

/-- The `PATTERNS` table shared by both lexer variants, minus its first
entry (the whitespace pattern, tried separately in `getNextToken` below),
in the source's order.  No entry here has type `UNKNOWN`. -/
def PATTERNS : List (TokenType × (List Char → Option (List Char))) :=
  [(.NEWLINE, matchNewline),
   (.COMMENT, matchComment),
   (.STRING, matchTriple '"'),
   (.STRING, matchTriple '\''),
   (.STRING, matchQuoted '\''),
   (.STRING, matchQuoted '"'),
   (.FLOAT, matchFloatDot),
   (.FLOAT, matchFloatExp),
   (.INTEGER, matchRadix 'b' 'B' isBinDigitChar),
   (.INTEGER, matchRadix 'o' 'O' isOctDigitChar),
   (.INTEGER, matchRadix 'x' 'X' isHexDigitChar),
   (.INTEGER, matchDigits),
   (.ASSIGNMENT_OPERATOR, matchLits assignOps),
   (.ARITHMETIC_OPERATOR, matchLits arithOps),
   (.COMPARISON_OPERATOR, matchLits compOps),
   (.LOGICAL_OPERATOR, matchLits logicalOps),
   (.IDENTITY_OPERATOR, matchLits [['i', 's']]),
   (.MEMBERSHIP_OPERATOR, matchLits [['i', 'n']]),
   (.BITWISE_OPERATOR, matchLits bitwiseOps),
   (.ASSIGNMENT_OPERATOR, matchLits [['=']]),
   (.ARITHMETIC_OPERATOR, matchLits [['/']]),
   (.ARROW, matchLits [['-', '>']]),
   (.LPAREN, matchSym '('),
   (.RPAREN, matchSym ')'),
   (.LBRACKET, matchSym '['),
   (.RBRACKET, matchSym ']'),
   (.LBRACE, matchSym '\x7b'),
   (.RBRACE, matchSym '\x7d'),
   (.COMMA, matchSym ','),
   (.COLON, matchSym ':'),
   (.SEMICOLON, matchSym ';'),
   (.DOT, matchSym '.'),
   (.IDENTIFIER, matchIdent)]

/-- First pattern (after whitespace) whose matcher accepts a non-empty
prefix; every matcher above returns a non-empty prefix or `none`. -/
def firstMatchCore (rest : List Char) : Option (TokenType × List Char) :=
  PATTERNS.findSome? (fun p => (p.2 rest).map (fun v => (p.1, v)))

/-- Lexer cursor: the not-yet-consumed input plus the 1-based position
counters.  The TypeScript fields `input`/`position`/`currentChar` are
represented by `remaining` (`= input.substring(position)`,
`currentChar = remaining.head?`). -/
structure LexState where
  remaining : List Char
  line : Int
  column : Int
deriving DecidableEq, Repr

/-- One step of `advance`: a consumed newline increments `line` and resets
`column`; any other consumed char (or stepping past the end, where
`currentChar` is `''`) increments `column`. -/
def Lexer.advanceOne (s : LexState) : LexState :=
  match s.remaining with
  | [] => { s with column := s.column + 1 }
  | c :: cs => if c = '\n' then ⟨cs, s.line + 1, 1⟩ else ⟨cs, s.line, s.column + 1⟩

/-- The `advance(steps)`. -/
def Lexer.advance (s : LexState) : Nat → LexState
  | 0 => s
  | n + 1 => Lexer.advance (Lexer.advanceOne s) n

/-- The `createErrorToken` of the error-reporting lexer (the push onto
`this.errors` is accounted for in `tokenizeLoop`, which collects every
returned `ERROR` token; each error token is returned exactly once). -/
def Lexer.createErrorToken (value : String) (line column : Int)
    (message : String) (suggestion : Option String) : Token :=
  ⟨.ERROR, value, line, column,
   some ⟨message, some (strOr suggestion "Revisa la sintaxis del código")⟩⟩

/-- Scan of `/\\([^"\\'abfnrtv0])/` over the string: the first backslash
followed by a character outside the class (attempts move one position at
a time, as an unanchored regex search does). -/
def findInvalidEscape : List Char → Option Char
  | [] => none
  | '\\' :: c :: rest =>
    if c ∈ ['"', '\\', '\'', 'a', 'b', 'f', 'n', 'r', 't', 'v', '0']
    then findInvalidEscape (c :: rest)
    else some c
  | _ :: rest => findInvalidEscape rest

/-- The `validateString`: (message, suggestion) on rejection. -/
def Lexer.validateString (value : String) : Option (String × String) :=
  let v := value.toList
  if (v.head? = some '"' ∧ v.getLast? ≠ some '"') ∨
     (v.head? = some '\'' ∧ v.getLast? ≠ some '\'') then
    some ("Cadena no cerrada correctamente",
      "Asegúrate de cerrar la cadena con la misma comilla que usaste para abrirla")
  else if ¬ (v.take 3 = ['"', '"', '"'] ∨ v.take 3 = ['\'', '\'', '\'']) then
    match findInvalidEscape v with
    | some c =>
      some ("Secuencia de escape inválida: \\" ++ String.mk [c],
        "Secuencias de escape válidas: \\\", \\', \\\\, \\n, \\t, \\r, \\b, \\f, \\v, \\0")
    | none => none
  else none

/-- The `getNextToken` of the error-reporting lexer, after the whitespace
pattern has been dispatched (see `Lexer.getNextToken`). -/
def Lexer.getNextTokenCore (s : LexState) : Token × LexState :=
  match firstMatchCore s.remaining with
  | some (ty, v) =>
    let value : String := String.mk v
    let startColumn := s.column
    -- the source validates only when the matched pattern is a string
    -- pattern (`if (pattern.type === TokenType.STRING) { ... }`)
    match (if ty = .STRING then Lexer.validateString value else none) with
    | some e =>
      let s' := Lexer.advance s v.length
      (Lexer.createErrorToken value s'.line startColumn e.1 (some e.2), s')
    | none =>
      let s' := Lexer.advance s v.length
      (⟨ty, value, s'.line, startColumn, none⟩, s')
  | none =>
    let startColumn := s.column
    let unknownChar : String :=
      match s.remaining.head? with
      | some c => String.mk [c]
      | none => ""
    let s' := Lexer.advanceOne s
    (Lexer.createErrorToken unknownChar s'.line startColumn
      ("Carácter no reconocido: '" ++ unknownChar ++ "'")
      (some "Caracteres válidos: letras, números, operadores (+, -, *, /, etc.) y símbolos"), s')

/-- The `getNextToken`: the source first tries the whitespace pattern (entry 0
of its table, type `UNKNOWN`) and on success advances and calls itself
recursively; because that pattern is greedy, the recursive call's
whitespace match always fails, so the recursion is unrolled exactly once
here and the recursive call proceeds to the remaining patterns. -/
def Lexer.getNextToken (s : LexState) : Token × LexState :=
  match matchWs s.remaining with
  | some v => Lexer.getNextTokenCore (Lexer.advance s v.length)
  | none => Lexer.getNextTokenCore s

/-- The 35 reserved words (`KEYWORDS` in both lexers and `pythonKeywords`
in the parser). -/
def Lexer.KEYWORDS : List String :=
  ["False", "None", "True", "and", "as", "assert", "async", "await",
   "break", "class", "continue", "def", "del", "elif", "else",
   "except", "finally", "for", "from", "global", "if", "import",
   "in", "is", "lambda", "nonlocal", "not", "or", "pass",
   "raise", "return", "try", "while", "with", "yield"]

/-- The `BOOLEANS`. -/
def Lexer.BOOLEANS : List String := ["True", "False"]

/-- The `NONE` constant list (renamed to avoid clashing with the token type). -/
def Lexer.NONEWORDS : List String := ["None"]

/-- The post-match reclassification applied by `tokenize` to `IDENTIFIER`
tokens (`{...token, type: finalType}`). -/
def Lexer.reclassify (t : Token) : Token :=
  if t.type = .IDENTIFIER then
    if Lexer.BOOLEANS.contains t.value then { t with type := .BOOLEAN }
    else if Lexer.NONEWORDS.contains t.value then { t with type := .NONE }
    else if Lexer.KEYWORDS.contains t.value then { t with type := .KEYWORD }
    else t
  else t

/-- The `while (this.position < this.input.length)` loop of the
error-reporting `tokenize`; returns (tokens, errors, final state).  Every
`ERROR` token is both returned by `getNextToken` (hence pushed onto
`tokens`) and pushed onto `this.errors` at creation; the `errors`
component collects exactly those tokens in creation order. -/
def Lexer.tokenizeLoop : Nat → LexState → List Token × List Token × LexState
  | 0, s => ([], [], s)
  | fuel + 1, s =>
    if s.remaining.isEmpty then ([], [], s)
    else
      let (t, s') := Lexer.getNextToken s
      let (toks, errs, sF) := Lexer.tokenizeLoop fuel s'
      if t.type = .UNKNOWN then (toks, errs, sF)
      else (Lexer.reclassify t :: toks,
            (if t.type = .ERROR then t :: errs else errs), sF)

/-- The `tokenize()` of the error-reporting lexer: `{ tokens, errors }`. -/
def Lexer.tokenize (input : String) : List Token × List Token :=
  let s0 : LexState := ⟨input.toList, 1, 1⟩
  let r := Lexer.tokenizeLoop (input.length + 1) s0
  (r.1 ++ [⟨.EOF, "EOF", r.2.2.line, r.2.2.column, none⟩], r.2.1)

/-- The `getNextToken` of the legacy lexer (`src/lexer/Lexer.ts`): same
pattern table, no string validation, and an unrecognized character yields
an `UNKNOWN` token (which `tokenize` filters out) instead of an `ERROR`. -/
def LegacyLexer.getNextTokenCore (s : LexState) : Token × LexState :=
  match firstMatchCore s.remaining with
  | some (ty, v) =>
    let value : String := String.mk v
    let startColumn := s.column
    let s' := Lexer.advance s v.length
    (⟨ty, value, s'.line, startColumn, none⟩, s')
  | none =>
    let unknownChar : String :=
      match s.remaining.head? with
      | some c => String.mk [c]
      | none => ""
    let s' := Lexer.advanceOne s
    (⟨.UNKNOWN, unknownChar, s'.line, s'.column - 1, none⟩, s')

/-- Legacy `getNextToken` with the whitespace pattern unrolled exactly as
in `Lexer.getNextToken`. -/
def LegacyLexer.getNextToken (s : LexState) : Token × LexState :=
  match matchWs s.remaining with
  | some v => LegacyLexer.getNextTokenCore (Lexer.advance s v.length)
  | none => LegacyLexer.getNextTokenCore s

/-- The scanning loop of the legacy `tokenize` (returns tokens and the
final state; `UNKNOWN`-typed results are dropped). -/
def LegacyLexer.tokenizeLoop : Nat → LexState → List Token × LexState
  | 0, s => ([], s)
  | fuel + 1, s =>
    if s.remaining.isEmpty then ([], s)
    else
      let (t, s') := LegacyLexer.getNextToken s
      let (toks, sF) := LegacyLexer.tokenizeLoop fuel s'
      if t.type = .UNKNOWN then (toks, sF)
      else (Lexer.reclassify t :: toks, sF)

/-- Legacy `tokenize()`: a plain token list. -/
def LegacyLexer.tokenize (input : String) : List Token :=
  let s0 : LexState := ⟨input.toList, 1, 1⟩
  let r := LegacyLexer.tokenizeLoop (input.length + 1) s0
  r.1 ++ [⟨.EOF, "EOF", r.2.line, r.2.column, none⟩]

/-- The `ASTNode` from `Parser.ts`: `{type, value?, children?, token?}`. -/
inductive ASTNode where
  | mk (type : String) (value : Option String)
       (children : Option (List ASTNode)) (token : Option Token)
deriving Repr

/-- The `ParserError` from `Parser.ts`. -/
structure ParserError where
  message : String
  line : Int
  column : Int
  token : Token
  suggestion : String
deriving DecidableEq, Repr

/-- The parser's mutable fields: the (pre-filtered) token list, the
cursor, and the accumulated error list. -/
structure ParserState where
  tokens : List Token
  currentTokenIndex : Nat
  errors : List ParserError
deriving Repr

/-- The fallback token produced by `peek`/`previous` for an out-of-range
index (`?? { type: EOF, value: "", line: -1, column: -1 }`). -/
def Parser.defaultToken : Token := ⟨.EOF, "", -1, -1, none⟩

/-- The `peek()`. -/
def Parser.peek (s : ParserState) : Token :=
  s.tokens.getD s.currentTokenIndex Parser.defaultToken

/-- The `previous()`: `tokens[currentTokenIndex - 1]`, with the JavaScript
index `-1` (when the cursor is 0) out of range. -/
def Parser.previous (s : ParserState) : Token :=
  if s.currentTokenIndex = 0 then Parser.defaultToken
  else s.tokens.getD (s.currentTokenIndex - 1) Parser.defaultToken

/-- The `isAtEnd()`. -/
def Parser.isAtEnd (s : ParserState) : Bool :=
  decide ((Parser.peek s).type = .EOF)

/-- The `check(type)`. -/
def Parser.check (s : ParserState) (ty : TokenType) : Bool :=
  if Parser.isAtEnd s then false else decide ((Parser.peek s).type = ty)

/-- The `checkNext(type)`. -/
def Parser.checkNext (s : ParserState) (ty : TokenType) : Bool :=
  if Parser.isAtEnd s then false
  else if s.tokens.length ≤ s.currentTokenIndex + 1 then false
  else
    match s.tokens.get? (s.currentTokenIndex + 1) with
    | some t => decide (t.type = ty)
    | none => false

/-- The `advance()`: increments the cursor unless at end, then returns
`previous()` together with the new state. -/
def Parser.advance (s : ParserState) : Token × ParserState :=
  let s' := if Parser.isAtEnd s then s
            else { s with currentTokenIndex := s.currentTokenIndex + 1 }
  (Parser.previous s', s')

/-- The `reportError`: appends one diagnostic built from the token's
position. -/
def Parser.reportError (s : ParserState) (t : Token)
    (message suggestion : String) : ParserState :=
  { s with errors := s.errors ++ [⟨message, t.line, t.column, t, suggestion⟩] }

/-- The `error(token, message, suggestion?)`: records the diagnostic (with
the default suggestion when none is given) and produces the state carried
by the thrown exception. -/
def Parser.throwError (s : ParserState) (t : Token) (message : String)
    (suggestion : Option String) : ParserState :=
  Parser.reportError s t message (strOr suggestion "Revise la sintaxis de Python")

/-- The `consume(type, message)`. -/
def Parser.consume (s : ParserState) (ty : TokenType) (message : String) :
    Except ParserState (Token × ParserState) :=
  if Parser.check s ty then .ok (Parser.advance s)
  else .error (Parser.throwError s (Parser.peek s) message none)

/-- The `/^\d/.test(value)`. -/
def Parser.startsWithDigit (v : String) : Bool :=
  match v.toList with
  | c :: _ => isDigitChar c
  | [] => false

/-- The `/^[a-zA-Z_][a-zA-Z0-9_]*$/.test(value)`. -/
def Parser.identShapeOk (v : String) : Bool :=
  match v.toList with
  | c :: cs => isIdentStartChar c && cs.all isIdentTailChar
  | [] => false

/-- The diagnostic `validateIdentifier` would append for this token, if
any: first matching rule wins (digit start, then `pythonKeywords`
membership, then the identifier shape regex). -/
def Parser.identDiag (t : Token) : Option ParserError :=
  if Parser.startsWithDigit t.value then
    some ⟨"Identificador inválido: '" ++ t.value ++ "'", t.line, t.column, t,
      "Los identificadores no pueden empezar con un número. Use letras o _"⟩
  else if Lexer.KEYWORDS.contains t.value then
    some ⟨"No se puede usar palabra clave como identificador: '" ++ t.value ++ "'",
      t.line, t.column, t,
      "Elija un nombre que no sea una palabra reservada de Python"⟩
  else if ¬ Parser.identShapeOk t.value then
    some ⟨"Caracteres inválidos en identificador: '" ++ t.value ++ "'",
      t.line, t.column, t,
      "Use solo letras, números y _ en los identificadores"⟩
  else none

/-- The `validateIdentifier(token)`: never throws, only (possibly) appends
one diagnostic (`pythonKeywords` in `Parser.ts` is the same 35-word list
as the lexer's `KEYWORDS`). -/
def Parser.validateIdentifier (s : ParserState) (t : Token) : ParserState :=
  match Parser.identDiag t with
  | some d => { s with errors := s.errors ++ [d] }
  | none => s

/-- The `parsePrimary()`: consumes exactly one literal/identifier token and
wraps it as a leaf node; anything else throws. -/
def Parser.parsePrimary (s : ParserState) :
    Except ParserState (ASTNode × ParserState) :=
  if Parser.check s .IDENTIFIER then
    let (tok, s1) := Parser.advance s
    let s2 := Parser.validateIdentifier s1 tok
    .ok (ASTNode.mk "Identifier" (some tok.value) none (some tok), s2)
  else if Parser.check s .INTEGER then
    let (tok, s1) := Parser.advance s
    .ok (ASTNode.mk "IntegerLiteral" (some tok.value) none (some tok), s1)
  else if Parser.check s .FLOAT then
    let (tok, s1) := Parser.advance s
    .ok (ASTNode.mk "FloatLiteral" (some tok.value) none (some tok), s1)
  else if Parser.check s .STRING then
    let (tok, s1) := Parser.advance s
    .ok (ASTNode.mk "StringLiteral" (some tok.value) none (some tok), s1)
  else if Parser.check s .BOOLEAN then
    let (tok, s1) := Parser.advance s
    .ok (ASTNode.mk "BooleanLiteral" (some tok.value) none (some tok), s1)
  else if Parser.check s .NONE then
    let (tok, s1) := Parser.advance s
    .ok (ASTNode.mk "NoneLiteral" (some tok.value) none (some tok), s1)
  else .error (Parser.throwError s (Parser.peek s) "Se esperaba una expresión válida" none)

/-- The `parseExpression()` simply delegates to `parsePrimary()`. -/
def Parser.parseExpression (s : ParserState) :
    Except ParserState (ASTNode × ParserState) :=
  Parser.parsePrimary s

/-- The `parseAssignment()`. -/
def Parser.parseAssignment (s : ParserState) :
    Except ParserState (ASTNode × ParserState) :=
  match Parser.consume s .IDENTIFIER "Se esperaba un identificador" with
  | .error e => .error e
  | .ok (identifier, s1) =>
    let s2 := Parser.validateIdentifier s1 identifier
    match Parser.consume s2 .ASSIGNMENT_OPERATOR "Se esperaba '=' después del identificador" with
    | .error e => .error e
    | .ok (_, s3) =>
      match Parser.parseExpression s3 with
      | .error e => .error e
      | .ok (value, s4) =>
        .ok (ASTNode.mk "Assignment" (some identifier.value)
              (some [value]) (some identifier), s4)

/-- The message built for a lexical `ERROR` token seen in statement
position: `` `Error léxico: ${token.error?.message || '...'}` ``. -/
def Parser.lexMessage (t : Token) : String :=
  "Error léxico: " ++ strOr (t.error.map ErrorInfo.message) "Carácter no reconocido"

/-- The `parseStatement()`: `Except.error` models the thrown `Parse Error`,
carrying the parser state with the already-recorded diagnostic. -/
def Parser.parseStatement (s : ParserState) :
    Except ParserState (Option ASTNode × ParserState) :=
  if Parser.isAtEnd s then .ok (none, s)
  else
    let token := Parser.peek s
    if token.type = .ERROR then
      let s1 := Parser.reportError s token (Parser.lexMessage token)
        (strOr (token.error.bind ErrorInfo.suggestion) "Revise el carácter en esta posición")
      let s2 := (Parser.advance s1).2
      .ok (none, s2)
    else if Parser.check s .IDENTIFIER && Parser.checkNext s .ASSIGNMENT_OPERATOR then
      match Parser.parseAssignment s with
      | .error e => .error e
      | .ok (n, s') => .ok (some n, s')
    else if Parser.check s .IDENTIFIER || Parser.check s .INTEGER ||
            Parser.check s .FLOAT || Parser.check s .STRING ||
            Parser.check s .BOOLEAN || Parser.check s .NONE then
      let s1 := if Parser.check s .IDENTIFIER
                then Parser.validateIdentifier s (Parser.peek s)
                else s
      match Parser.parseExpression s1 with
      | .error e => .error e
      | .ok (expr, s2) =>
        if Parser.check s2 .ASSIGNMENT_OPERATOR then
          .error (Parser.throwError s2 (Parser.peek s2) "No se puede asignar a un literal"
            (some "La asignación debe tener un identificador válido a la izquierda del ="))
        else .ok (some expr, s2)
    else if Parser.check s .KEYWORD then
      .error (Parser.throwError s (Parser.peek s)
        ("Palabra clave '" ++ (Parser.peek s).value ++ "' usada incorrectamente")
        (some "Las palabras clave no pueden usarse como identificadores o en este contexto"))
    else
      .error (Parser.throwError s (Parser.peek s)
        "Se esperaba una declaración o expresión válida" none)

/-- The `while (!this.isAtEnd())` loop of `synchronize` (after its
unconditional leading `advance()`). -/
def Parser.syncLoop : Nat → ParserState → ParserState
  | 0, s => s
  | fuel + 1, s =>
    if Parser.isAtEnd s then s
    else if (Parser.previous s).type = .NEWLINE then s
    else if (Parser.peek s).type = .ERROR then
      Parser.syncLoop fuel (Parser.advance s).2
    -- the source's next two checks (`peek` is an identifier whose
    -- successor is the assignment operator → stop; else any
    -- literal/identifier start → stop) fall through to each other, so an
    -- identifier never followed by `=` still stops at the second check
    else if (Parser.peek s).type = .IDENTIFIER ∧
            Parser.checkNext s .ASSIGNMENT_OPERATOR = true then s
    else if (Parser.check s .IDENTIFIER || Parser.check s .INTEGER ||
             Parser.check s .FLOAT || Parser.check s .STRING ||
             Parser.check s .BOOLEAN || Parser.check s .NONE) = true then s
    else Parser.syncLoop fuel (Parser.advance s).2

/-- The `synchronize()`: consume the triggering token, then scan to a safe
boundary. -/
def Parser.synchronize (s : ParserState) : ParserState :=
  Parser.syncLoop
    ((Parser.advance s).2.tokens.length + 1 - (Parser.advance s).2.currentTokenIndex)
    (Parser.advance s).2

/-- One `while (this.match(NEWLINE)) {}` loop. -/
def Parser.skipNewlinesF : Nat → ParserState → ParserState
  | 0, s => s
  | fuel + 1, s =>
    if Parser.check s .NEWLINE then Parser.skipNewlinesF fuel (Parser.advance s).2
    else s

/-- Newline skipping with sufficient fuel. -/
def Parser.skipNewlines (s : ParserState) : ParserState :=
  Parser.skipNewlinesF (s.tokens.length + 1 - s.currentTokenIndex) s

/-- The `while (!this.isAtEnd())` loop of `parse()`: skip leading
newlines, stop at end of stream, otherwise derive one statement; a
thrown failure is caught and answered with `synchronize()`. -/
def Parser.parseLoopF : Nat → ParserState → List ASTNode × ParserState
  | 0, s => ([], s)
  | fuel + 1, s =>
    if Parser.isAtEnd s then ([], s)
    else
      let s1 := Parser.skipNewlines s
      if Parser.isAtEnd s1 then ([], s1)
      else
        match Parser.parseStatement s1 with
        | .ok (stmtOpt, s2) =>
          let s3 := Parser.skipNewlines s2
          let (rest, sF) := Parser.parseLoopF fuel s3
          ((match stmtOpt with
            | some st => st :: rest
            | none => rest), sF)
        | .error sE => Parser.parseLoopF fuel (Parser.synchronize sE)

/-- The parse loop with sufficient fuel. -/
def Parser.parseLoop (s : ParserState) : List ASTNode × ParserState :=
  Parser.parseLoopF (s.tokens.length + 1 - s.currentTokenIndex) s

/-- The constructor's filter: drop `UNKNOWN` and `COMMENT` tokens, keep
everything else (including `ERROR` tokens). -/
def Parser.filterTokens (ts : List Token) : List Token :=
  ts.filter (fun t => decide (t.type ≠ .UNKNOWN ∧ t.type ≠ .COMMENT))

/-- The parser's initial state on a raw token list. -/
def Parser.initState (ts : List Token) : ParserState :=
  ⟨Parser.filterTokens ts, 0, []⟩

/-- The `parse()`: `{ast, errors}`, the tree present only when at least one
statement was derived. -/
def Parser.parse (ts : List Token) : Option ASTNode × List ParserError :=
  let r := Parser.parseLoop (Parser.initState ts)
  (if r.1.length > 0 then some (ASTNode.mk "Program" none (some r.1) none) else none,
   r.2.errors)

/-- The controller's pipeline (`compilerController.ts`): scan, then parse
the produced tokens; returns (tokens, ast, lexical errors, syntactic
errors). -/
def pipeline (input : String) :
    List Token × Option ASTNode × List Token × List ParserError :=
  let lr := Lexer.tokenize input
  let pr := Parser.parse lr.1
  (lr.1, pr.1, lr.2, pr.2)

/-- The five reserved words that are also lexemes of the operator
patterns (`^(and|or|not)`, `^(is)`, `^(in)`), which the pattern table
tries before the identifier pattern. -/
def Lexer.operatorKeywords : List String := ["and", "or", "not", "is", "in"]

/-- The safe restart boundaries of panic-mode recovery: `synchronize`'s
loop stops at end of stream, after a just-consumed newline, at an
identifier followed by the assignment operator, or at a
literal/identifier statement start. -/
def Parser.syncBoundary (s : ParserState) : Prop :=
  Parser.isAtEnd s = true ∨
  (Parser.previous s).type = .NEWLINE ∨
  ((Parser.peek s).type = .IDENTIFIER ∧ Parser.checkNext s .ASSIGNMENT_OPERATOR = true) ∨
  (Parser.check s .IDENTIFIER || Parser.check s .INTEGER || Parser.check s .FLOAT ||
   Parser.check s .STRING || Parser.check s .BOOLEAN || Parser.check s .NONE) = true

/-- C2 (code bug): the fixed-priority list does resolve `**=` / `*=` /
`*` as the spec describes (the compound-assignment regex is tried before
the arithmetic one, and `*=` cannot match a prefix of `**=`), but `->`
is NOT lexed as one `ARROW` token: the arithmetic pattern (listed before
the arrow pattern) captures `-`, and `>` is then taken by the comparison
pattern, so `tokenize("->")` yields an arithmetic token and a comparison
token and the `ARROW` pattern is unreachable. -/
theorem tokenize_operator_priority_eval :
    Lexer.tokenize "**=" =
      ([⟨.ASSIGNMENT_OPERATOR, "**=", 1, 1, none⟩, ⟨.EOF, "EOF", 1, 4, none⟩], []) ∧
    Lexer.tokenize "*=" =
      ([⟨.ASSIGNMENT_OPERATOR, "*=", 1, 1, none⟩, ⟨.EOF, "EOF", 1, 3, none⟩], []) ∧
    Lexer.tokenize "*" =
      ([⟨.ARITHMETIC_OPERATOR, "*", 1, 1, none⟩, ⟨.EOF, "EOF", 1, 2, none⟩], []) ∧
    Lexer.tokenize "->" =
      ([⟨.ARITHMETIC_OPERATOR, "-", 1, 1, none⟩, ⟨.COMPARISON_OPERATOR, ">", 1, 2, none⟩,
        ⟨.EOF, "EOF", 1, 3, none⟩], []) := by
  refine ⟨rfl, rfl, rfl, rfl⟩

/-- C3 (counterexample): `tokenize` applied to the reserved word `and`
does not emit a keyword token: the logical-operator pattern captures it
before the identifier pattern, so no post-match reclassification
happens; likewise `is` and `in` become identity/membership operator
tokens. -/
theorem tokenize_and_not_keyword :
    (Lexer.tokenize "and").1.map Token.type = [.LOGICAL_OPERATOR, .EOF] ∧
    (Lexer.tokenize "or").1.map Token.type = [.LOGICAL_OPERATOR, .EOF] ∧
    (Lexer.tokenize "not").1.map Token.type = [.LOGICAL_OPERATOR, .EOF] ∧
    (Lexer.tokenize "is").1.map Token.type = [.IDENTITY_OPERATOR, .EOF] ∧
    (Lexer.tokenize "in").1.map Token.type = [.MEMBERSHIP_OPERATOR, .EOF] ∧
    TokenType.LOGICAL_OPERATOR ≠ TokenType.KEYWORD := by
  refine ⟨rfl, rfl, rfl, rfl, rfl, by decide⟩

/-- C3 (amended): for each of the 30 reserved words that are not also
operator lexemes, `tokenize` emits exactly one token, obtained by
post-match reclassification of the matched identifier (`True`/`False` →
boolean, `None` → none-literal, the rest → keyword), followed by the
end-of-stream token; the five words `and`, `or`, `not`, `is`, `in` are
instead captured by the earlier operator patterns. -/
theorem reserved_word_single_token_amended :
    (∀ w ∈ Lexer.KEYWORDS, w ∉ Lexer.operatorKeywords →
      Lexer.tokenize w =
        ([Lexer.reclassify ⟨.IDENTIFIER, w, 1, 1, none⟩,
          ⟨.EOF, "EOF", 1, (w.length : Int) + 1, none⟩], []) ∧
      (Lexer.reclassify ⟨.IDENTIFIER, w, 1, 1, none⟩).type =
        (if w = "True" ∨ w = "False" then .BOOLEAN
         else if w = "None" then .NONE else .KEYWORD)) ∧
    (Lexer.tokenize "and").1.map Token.type = [.LOGICAL_OPERATOR, .EOF] ∧
    (Lexer.tokenize "or").1.map Token.type = [.LOGICAL_OPERATOR, .EOF] ∧
    (Lexer.tokenize "not").1.map Token.type = [.LOGICAL_OPERATOR, .EOF] ∧
    (Lexer.tokenize "is").1.map Token.type = [.IDENTITY_OPERATOR, .EOF] ∧
    (Lexer.tokenize "in").1.map Token.type = [.MEMBERSHIP_OPERATOR, .EOF] := by
  refine ⟨by decide, rfl, rfl, rfl, rfl, rfl⟩

/-- Witness for the amended C3 theorem at the reserved word `class`. -/
theorem reserved_word_single_token_amended_witness :
    Lexer.tokenize "class" =
      ([Lexer.reclassify ⟨.IDENTIFIER, "class", 1, 1, none⟩,
        ⟨.EOF, "EOF", 1, (("class" : String).length : Int) + 1, none⟩], []) ∧
    (Lexer.reclassify ⟨.IDENTIFIER, "class", 1, 1, none⟩).type =
      (if ("class" : String) = "True" ∨ ("class" : String) = "False" then .BOOLEAN
       else if ("class" : String) = "None" then .NONE else .KEYWORD) :=
  reserved_word_single_token_amended.1 "class" (by decide) (by decide)

/-- C4 (code bug): the escape validator's character class includes `a`,
so a non-triple string containing the escape `\a` is ACCEPTED: `'\a'`
lexes to a string token and no error, although the validator's own
remediation text lists the valid escapes without `\a` (and a genuinely
disallowed escape such as `\q` is rejected, showing the check is
otherwise active). -/
theorem tokenize_backslash_a_accepted :
    Lexer.tokenize "'\\a'" =
      ([⟨.STRING, "'\\a'", 1, 1, none⟩, ⟨.EOF, "EOF", 1, 5, none⟩], []) ∧
    Lexer.validateString "'\\a'" = none ∧
    Lexer.validateString "'\\q'" =
      some ("Secuencia de escape inválida: \\q",
        "Secuencias de escape válidas: \\\", \\', \\\\, \\n, \\t, \\r, \\b, \\f, \\v, \\0") ∧
    (Lexer.tokenize "'\\q'").2.map Token.type = [.ERROR] := by
  refine ⟨rfl, rfl, rfl, rfl⟩

/-- C5 (code bug): on the input `'hello` the string patterns fail (they
only match closed strings), so the lone quote falls through to the
unrecognized-character branch: the pipeline yields exactly one lexical
diagnostic citing an unrecognized character — not an unclosed string —
and the remainder `hello` is parsed as one Identifier statement rather
than zero statements. -/
theorem pipeline_unterminated_string_eval :
    Lexer.tokenize "'hello" =
      ([⟨.ERROR, "'", 1, 1,
          some ⟨"Carácter no reconocido: '''",
            some "Caracteres válidos: letras, números, operadores (+, -, *, /, etc.) y símbolos"⟩⟩,
        ⟨.IDENTIFIER, "hello", 1, 2, none⟩,
        ⟨.EOF, "EOF", 1, 7, none⟩],
       [⟨.ERROR, "'", 1, 1,
          some ⟨"Carácter no reconocido: '''",
            some "Caracteres válidos: letras, números, operadores (+, -, *, /, etc.) y símbolos"⟩⟩]) ∧
    Parser.parse (Lexer.tokenize "'hello").1 =
      (some (ASTNode.mk "Program" none
        (some [ASTNode.mk "Identifier" (some "hello") none
          (some ⟨.IDENTIFIER, "hello", 1, 2, none⟩)]) none),
       [⟨"Error léxico: Carácter no reconocido: '''", 1, 1,
          ⟨.ERROR, "'", 1, 1,
            some ⟨"Carácter no reconocido: '''",
              some "Caracteres válidos: letras, números, operadores (+, -, *, /, etc.) y símbolos"⟩⟩,
          "Caracteres válidos: letras, números, operadores (+, -, *, /, etc.) y símbolos"⟩]) := by
  refine ⟨rfl, rfl⟩

/-- C6 (counterexample): running the full pipeline on `class = 1`
produces exactly one diagnostic, and it is the keyword-misuse hard error
(`Palabra clave 'class' usada incorrectamente`), not the
reserved-word-used-as-identifier diagnostic of identifier validation:
the lexer has already reclassified `class` to a KEYWORD token, so
statement derivation never runs `validateIdentifier` on it. -/
theorem pipeline_class_keyword_diag :
    (Parser.parse (Lexer.tokenize "class = 1").1).2 =
      [⟨"Palabra clave 'class' usada incorrectamente", 1, 1,
        ⟨.KEYWORD, "class", 1, 1, none⟩,
        "Las palabras clave no pueden usarse como identificadores o en este contexto"⟩] ∧
    ("Palabra clave 'class' usada incorrectamente" : String) ≠
      "No se puede usar palabra clave como identificador: 'class'" := by
  refine ⟨rfl, by decide⟩

/-- C6 (amended): on the inputs `class = 1` and `for = 2` the pipeline
produces exactly one diagnostic each, the keyword-misuse hard error for
the reserved word at statement start; panic-mode recovery then resumes
and parses the right-hand side literal as its own expression statement. -/
theorem pipeline_class_for_keyword_misuse :
    Parser.parse (Lexer.tokenize "class = 1").1 =
      (some (ASTNode.mk "Program" none
        (some [ASTNode.mk "IntegerLiteral" (some "1") none
          (some ⟨.INTEGER, "1", 1, 9, none⟩)]) none),
       [⟨"Palabra clave 'class' usada incorrectamente", 1, 1,
          ⟨.KEYWORD, "class", 1, 1, none⟩,
          "Las palabras clave no pueden usarse como identificadores o en este contexto"⟩]) ∧
    Parser.parse (Lexer.tokenize "for = 2").1 =
      (some (ASTNode.mk "Program" none
        (some [ASTNode.mk "IntegerLiteral" (some "2") none
          (some ⟨.INTEGER, "2", 1, 7, none⟩)]) none),
       [⟨"Palabra clave 'for' usada incorrectamente", 1, 1,
          ⟨.KEYWORD, "for", 1, 1, none⟩,
          "Las palabras clave no pueden usarse como identificadores o en este contexto"⟩]) := by
  refine ⟨rfl, rfl⟩

/-- Past the end of the token list, `peek` yields the default token. -/
theorem Parser.peek_of_le (s : ParserState)
    (h : s.tokens.length ≤ s.currentTokenIndex) :
    Parser.peek s = Parser.defaultToken := by
  unfold Parser.peek
  rw [List.getD_eq_getElem?_getD, List.getElem?_eq_none h]
  rfl

/-- Past the end of the token list, the parser is at end. -/
theorem Parser.isAtEnd_of_le (s : ParserState)
    (h : s.tokens.length ≤ s.currentTokenIndex) :
    Parser.isAtEnd s = true := by
  unfold Parser.isAtEnd
  rw [Parser.peek_of_le s h]
  rfl

/-- Not at end means the cursor is in range. -/
theorem Parser.lt_length_of_not_atEnd (s : ParserState)
    (h : Parser.isAtEnd s = false) :
    s.currentTokenIndex < s.tokens.length := by
  by_contra hc
  rw [Parser.isAtEnd_of_le s (by omega)] at h
  exact absurd h (by simp)

/-- In range, `peek` is the indexed token. -/
theorem Parser.peek_of_lt (s : ParserState)
    (h : s.currentTokenIndex < s.tokens.length) :
    Parser.peek s = s.tokens[s.currentTokenIndex] := by
  unfold Parser.peek
  rw [List.getD_eq_getElem?_getD, List.getElem?_eq_getElem h]
  rfl

/-- The state component of `advance`, as an equation. -/
theorem Parser.advance_state (s : ParserState) :
    (Parser.advance s).2 =
      (if Parser.isAtEnd s then s
       else { s with currentTokenIndex := s.currentTokenIndex + 1 }) := rfl

/-- The `advance` never changes the token list. -/
theorem Parser.advance_tokens (s : ParserState) :
    (Parser.advance s).2.tokens = s.tokens := by
  rw [Parser.advance_state]; split <;> rfl

/-- The `advance` never changes the error list. -/
theorem Parser.advance_errors (s : ParserState) :
    (Parser.advance s).2.errors = s.errors := by
  rw [Parser.advance_state]; split <;> rfl

/-- The `advance` never moves the cursor backwards. -/
theorem Parser.advance_index_le (s : ParserState) :
    s.currentTokenIndex ≤ (Parser.advance s).2.currentTokenIndex := by
  rw [Parser.advance_state]; split
  · exact Nat.le_refl _
  · exact Nat.le_succ _

/-- Off the end, `advance` is the identity on the state. -/
theorem Parser.advance_of_atEnd (s : ParserState)
    (h : Parser.isAtEnd s = true) : (Parser.advance s).2 = s := by
  rw [Parser.advance_state, if_pos h]

/-- Not at end, `advance` increments the cursor. -/
theorem Parser.advance_of_not_atEnd (s : ParserState)
    (h : Parser.isAtEnd s = false) :
    (Parser.advance s).2 = { s with currentTokenIndex := s.currentTokenIndex + 1 } := by
  rw [Parser.advance_state, if_neg (by simp [h])]

/-- The `syncLoop` with sufficient fuel stops at a safe boundary, preserves
the token and error lists, and never moves the cursor backwards. -/
theorem Parser.syncLoop_spec : ∀ (fuel : Nat) (s : ParserState),
    s.tokens.length < s.currentTokenIndex + fuel →
    Parser.syncBoundary (Parser.syncLoop fuel s) ∧
    (Parser.syncLoop fuel s).tokens = s.tokens ∧
    s.currentTokenIndex ≤ (Parser.syncLoop fuel s).currentTokenIndex ∧
    (Parser.syncLoop fuel s).errors = s.errors := by
  intro fuel
  induction fuel with
  | zero =>
    intro s h
    exact ⟨Or.inl (Parser.isAtEnd_of_le s (by omega)), rfl, Nat.le_refl _, rfl⟩
  | succ n ih =>
    intro s h
    by_cases h1 : Parser.isAtEnd s = true
    · have hstep : Parser.syncLoop (n + 1) s = s := by
        simp [Parser.syncLoop, h1]
      rw [hstep]
      exact ⟨Or.inl h1, rfl, Nat.le_refl _, rfl⟩
    · have h1f : Parser.isAtEnd s = false := by
        cases hb : Parser.isAtEnd s
        · rfl
        · exact absurd hb h1
      have hadv : (Parser.advance s).2 =
          { s with currentTokenIndex := s.currentTokenIndex + 1 } :=
        Parser.advance_of_not_atEnd s h1f
      have hinv : ((Parser.advance s).2).tokens.length <
          ((Parser.advance s).2).currentTokenIndex + n := by
        rw [hadv]
        simpa using (by omega : s.tokens.length < s.currentTokenIndex + 1 + n)
      by_cases h2 : (Parser.previous s).type = TokenType.NEWLINE
      · have hstep : Parser.syncLoop (n + 1) s = s := by
          simp [Parser.syncLoop, h1, h2]
        rw [hstep]
        exact ⟨Or.inr (Or.inl h2), rfl, Nat.le_refl _, rfl⟩
      · by_cases h3 : (Parser.peek s).type = TokenType.ERROR
        · have hstep : Parser.syncLoop (n + 1) s =
              Parser.syncLoop n (Parser.advance s).2 := by
            simp [Parser.syncLoop, h1, h2, h3]
          rw [hstep]
          obtain ⟨b, ht, hle, he⟩ := ih (Parser.advance s).2 hinv
          refine ⟨b, ht.trans (Parser.advance_tokens s), ?_,
            he.trans (Parser.advance_errors s)⟩
          exact Nat.le_trans (Parser.advance_index_le s) hle
        · by_cases h4 : (Parser.peek s).type = TokenType.IDENTIFIER ∧
              Parser.checkNext s TokenType.ASSIGNMENT_OPERATOR = true
          · have hstep : Parser.syncLoop (n + 1) s = s := by
              simp [Parser.syncLoop, h1, h2, h3, h4]
            rw [hstep]
            exact ⟨Or.inr (Or.inr (Or.inl h4)), rfl, Nat.le_refl _, rfl⟩
          · by_cases h5 : (Parser.check s TokenType.IDENTIFIER ||
                Parser.check s TokenType.INTEGER || Parser.check s TokenType.FLOAT ||
                Parser.check s TokenType.STRING || Parser.check s TokenType.BOOLEAN ||
                Parser.check s TokenType.NONE) = true
            · have hstep : Parser.syncLoop (n + 1) s = s := by
                simp [Parser.syncLoop, h1, h2, h3, h4, h5]
              rw [hstep]
              exact ⟨Or.inr (Or.inr (Or.inr h5)), rfl, Nat.le_refl _, rfl⟩
            · have hstep : Parser.syncLoop (n + 1) s =
                  Parser.syncLoop n (Parser.advance s).2 := by
                simp [Parser.syncLoop, h1, h2, h3, h4, h5]
              rw [hstep]
              obtain ⟨b, ht, hle, he⟩ := ih (Parser.advance s).2 hinv
              refine ⟨b, ht.trans (Parser.advance_tokens s), ?_,
                he.trans (Parser.advance_errors s)⟩
              exact Nat.le_trans (Parser.advance_index_le s) hle

/-- C8: panic-mode recovery always returns (the embedded loop's fuel is
provably sufficient): it preserves the token and error lists,
unconditionally consumes the triggering token (strict cursor progress
whenever the trigger is not already the end of stream), and the state it
returns is at a safe boundary — end of stream, just-consumed newline,
identifier followed by the assignment operator, or a literal/identifier
statement start. -/
theorem synchronize_reaches_boundary (s : ParserState) :
    (Parser.synchronize s).tokens = s.tokens ∧
    (Parser.synchronize s).errors = s.errors ∧
    (Parser.isAtEnd s = false →
      s.currentTokenIndex < (Parser.synchronize s).currentTokenIndex) ∧
    Parser.syncBoundary (Parser.synchronize s) := by
  unfold Parser.synchronize
  have hinv : ((Parser.advance s).2).tokens.length <
      ((Parser.advance s).2).currentTokenIndex +
        (((Parser.advance s).2).tokens.length + 1 - ((Parser.advance s).2).currentTokenIndex) := by
    omega
  obtain ⟨b, ht, hle, he⟩ := Parser.syncLoop_spec _ (Parser.advance s).2 hinv
  refine ⟨ht.trans (Parser.advance_tokens s), he.trans (Parser.advance_errors s), ?_, b⟩
  intro hend
  have hidx : (Parser.advance s).2.currentTokenIndex = s.currentTokenIndex + 1 := by
    rw [Parser.advance_of_not_atEnd s hend]
  omega

/-- Witness for C8 at a concrete state (a keyword token at the cursor,
so recovery has something to consume). -/
theorem synchronize_reaches_boundary_witness :
    Parser.isAtEnd (⟨[⟨.KEYWORD, "class", 1, 1, none⟩, ⟨.INTEGER, "1", 1, 9, none⟩,
        ⟨.EOF, "EOF", 1, 10, none⟩], 0, []⟩ : ParserState) = false ∧
    0 < (Parser.synchronize ⟨[⟨.KEYWORD, "class", 1, 1, none⟩, ⟨.INTEGER, "1", 1, 9, none⟩,
        ⟨.EOF, "EOF", 1, 10, none⟩], 0, []⟩).currentTokenIndex ∧
    Parser.syncBoundary (Parser.synchronize ⟨[⟨.KEYWORD, "class", 1, 1, none⟩,
        ⟨.INTEGER, "1", 1, 9, none⟩, ⟨.EOF, "EOF", 1, 10, none⟩], 0, []⟩) :=
  ⟨by decide,
   (synchronize_reaches_boundary ⟨[⟨.KEYWORD, "class", 1, 1, none⟩, ⟨.INTEGER, "1", 1, 9, none⟩,
      ⟨.EOF, "EOF", 1, 10, none⟩], 0, []⟩).2.2.1 (by decide),
   (synchronize_reaches_boundary ⟨[⟨.KEYWORD, "class", 1, 1, none⟩, ⟨.INTEGER, "1", 1, 9, none⟩,
      ⟨.EOF, "EOF", 1, 10, none⟩], 0, []⟩).2.2.2⟩

/-- The `peek` ignores the error accumulator. -/
theorem Parser.peek_errors_irrel (tk : List Token) (i : Nat)
    (e1 e2 : List ParserError) :
    Parser.peek ⟨tk, i, e1⟩ = Parser.peek ⟨tk, i, e2⟩ := rfl

/-- The `check` ignores the error accumulator. -/
theorem Parser.check_errors_irrel (tk : List Token) (i : Nat)
    (e1 e2 : List ParserError) (ty : TokenType) :
    Parser.check ⟨tk, i, e1⟩ ty = Parser.check ⟨tk, i, e2⟩ ty := rfl

/-- Consuming the current token of a state that is not at end yields
exactly the peeked token. -/
theorem Parser.advance_fst (s : ParserState) (t : Token)
    (hEnd : Parser.isAtEnd s = false) (hpeek : Parser.peek s = t) :
    (Parser.advance s).1 = t := by
  show Parser.previous (Parser.advance s).2 = t
  rw [Parser.advance_of_not_atEnd s hEnd]
  unfold Parser.previous
  rw [if_neg (by simp)]
  dsimp only
  rw [Nat.add_sub_cancel]
  exact hpeek

/-- If `checkNext` fails while not at end, `check` at the incremented
cursor fails as well (for a non-end-of-stream token type this covers
both the out-of-range and mismatching-type cases). -/
theorem Parser.check_succ_false_of_checkNext_false (s : ParserState) (ty : TokenType)
    (hEnd : Parser.isAtEnd s = false)
    (h : Parser.checkNext s ty = false) :
    Parser.check { s with currentTokenIndex := s.currentTokenIndex + 1 } ty = false := by
  by_cases hlen : s.tokens.length ≤ s.currentTokenIndex + 1
  · have hAt : Parser.isAtEnd { s with currentTokenIndex := s.currentTokenIndex + 1 } = true :=
      Parser.isAtEnd_of_le _ hlen
    simp [Parser.check, hAt]
  · push_neg at hlen
    unfold Parser.checkNext at h
    rw [if_neg (by simp [hEnd]), if_neg (by omega)] at h
    simp only [List.get?_eq_getElem?, List.getElem?_eq_getElem hlen] at h
    have hty : s.tokens[s.currentTokenIndex + 1].type ≠ ty := by
      intro he
      simp [he] at h
    have hpeek : Parser.peek { s with currentTokenIndex := s.currentTokenIndex + 1 } =
        s.tokens[s.currentTokenIndex + 1] := Parser.peek_of_lt _ hlen
    unfold Parser.check
    split
    · rfl
    · simp [hpeek, hty]

/-- C9: when a statement begins with an identifier token that is not
followed by the assignment operator and whose text violates an
identifier-validation rule, `parseStatement` appends the corresponding
diagnostic twice — once during statement-start validation and once again
inside `parsePrimary` when the token is consumed — while still producing
the `Identifier` expression node and consuming exactly that token. -/
theorem identifier_diagnostic_appended_twice
    (s : ParserState) (t : Token) (d : ParserError)
    (hpeek : Parser.peek s = t) (hty : t.type = .IDENTIFIER)
    (hnext : Parser.checkNext s .ASSIGNMENT_OPERATOR = false)
    (hdiag : Parser.identDiag t = some d) :
    Parser.parseStatement s =
      .ok (some (ASTNode.mk "Identifier" (some t.value) none (some t)),
        ⟨s.tokens, s.currentTokenIndex + 1, s.errors ++ [d, d]⟩) := by
  have hEnd : Parser.isAtEnd s = false := by
    simp [Parser.isAtEnd, hpeek, hty]
  have hchkId : Parser.check s .IDENTIFIER = true := by
    simp [Parser.check, hEnd, hpeek, hty]
  have hval : ∀ (u : ParserState), Parser.validateIdentifier u t =
      { u with errors := u.errors ++ [d] } := by
    intro u
    unfold Parser.validateIdentifier
    rw [hdiag]
  -- the state after the statement-start validation
  have hs1 : Parser.validateIdentifier s (Parser.peek s) =
      (⟨s.tokens, s.currentTokenIndex, s.errors ++ [d]⟩ : ParserState) := by
    rw [hpeek, hval s]
  have hEnd1 : Parser.isAtEnd (⟨s.tokens, s.currentTokenIndex, s.errors ++ [d]⟩ : ParserState) = false := hEnd
  have hpeek1 : Parser.peek (⟨s.tokens, s.currentTokenIndex, s.errors ++ [d]⟩ : ParserState) = t := hpeek
  have hadv1 : Parser.advance (⟨s.tokens, s.currentTokenIndex, s.errors ++ [d]⟩ : ParserState) =
      (t, ⟨s.tokens, s.currentTokenIndex + 1, s.errors ++ [d]⟩) := by
    have h1 := Parser.advance_fst _ t hEnd1 hpeek1
    have h2 := Parser.advance_of_not_atEnd _ hEnd1
    calc Parser.advance (⟨s.tokens, s.currentTokenIndex, s.errors ++ [d]⟩ : ParserState)
        = ((Parser.advance ⟨s.tokens, s.currentTokenIndex, s.errors ++ [d]⟩).1,
           (Parser.advance ⟨s.tokens, s.currentTokenIndex, s.errors ++ [d]⟩).2) := rfl
      _ = (t, ⟨s.tokens, s.currentTokenIndex + 1, s.errors ++ [d]⟩) := by rw [h1, h2]
  have hprim : Parser.parseExpression (⟨s.tokens, s.currentTokenIndex, s.errors ++ [d]⟩ : ParserState) =
      .ok (ASTNode.mk "Identifier" (some t.value) none (some t),
        ⟨s.tokens, s.currentTokenIndex + 1, (s.errors ++ [d]) ++ [d]⟩) := by
    unfold Parser.parseExpression Parser.parsePrimary
    rw [if_pos (show Parser.check (⟨s.tokens, s.currentTokenIndex, s.errors ++ [d]⟩ : ParserState)
      .IDENTIFIER = true from hchkId)]
    rw [hadv1]
    dsimp only
    rw [hval _]
  have hchkA : Parser.check (⟨s.tokens, s.currentTokenIndex + 1,
      s.errors ++ [d, d]⟩ : ParserState) .ASSIGNMENT_OPERATOR = false := by
    rw [Parser.check_errors_irrel s.tokens (s.currentTokenIndex + 1)
      (s.errors ++ [d, d]) s.errors]
    exact Parser.check_succ_false_of_checkNext_false s .ASSIGNMENT_OPERATOR hEnd hnext
  unfold Parser.parseStatement
  rw [if_neg (by simp [hEnd])]
  dsimp only
  rw [if_neg (by rw [hpeek, hty]; simp), if_neg (by simp [hnext]),
    if_pos (by simp [hchkId]), if_pos hchkId, hs1, hprim]
  dsimp only
  rw [if_neg (by simp [hchkA])]
  rw [List.append_assoc]
  rfl

/-- Witness for C9 at the identifier `2x` (digit-start violation),
not followed by an assignment operator. -/
theorem identifier_diagnostic_appended_twice_witness :
    Parser.parseStatement
        ⟨[⟨.IDENTIFIER, "2x", 1, 1, none⟩, ⟨.EOF, "EOF", 1, 3, none⟩], 0, []⟩ =
      .ok (some (ASTNode.mk "Identifier" (some "2x") none
            (some ⟨.IDENTIFIER, "2x", 1, 1, none⟩)),
        ⟨[⟨.IDENTIFIER, "2x", 1, 1, none⟩, ⟨.EOF, "EOF", 1, 3, none⟩], 1,
         [⟨"Identificador inválido: '2x'", 1, 1, ⟨.IDENTIFIER, "2x", 1, 1, none⟩,
            "Los identificadores no pueden empezar con un número. Use letras o _"⟩,
          ⟨"Identificador inválido: '2x'", 1, 1, ⟨.IDENTIFIER, "2x", 1, 1, none⟩,
            "Los identificadores no pueden empezar con un número. Use letras o _"⟩]⟩) :=
  identifier_diagnostic_appended_twice _ _ _ rfl rfl (by decide) (by decide)

/-- The `isAtEnd` only depends on the token list and the cursor. -/
theorem Parser.isAtEnd_congr (s1 s2 : ParserState)
    (ht : s1.tokens = s2.tokens)
    (hi : s1.currentTokenIndex = s2.currentTokenIndex) :
    Parser.isAtEnd s1 = Parser.isAtEnd s2 := by
  unfold Parser.isAtEnd Parser.peek
  rw [ht, hi]

/-- A `check` success implies the parser is not at end. -/
theorem Parser.not_atEnd_of_check (s : ParserState) (ty : TokenType)
    (h : Parser.check s ty = true) : Parser.isAtEnd s = false := by
  unfold Parser.check at h
  cases hb : Parser.isAtEnd s
  · rfl
  · rw [if_pos hb] at h
    exact absurd h (by simp)

/-- Field effects of `validateIdentifier`: cursor and tokens unchanged,
errors extended by at most one diagnostic. -/
theorem Parser.validateIdentifier_fields (s : ParserState) (t : Token) :
    (Parser.validateIdentifier s t).tokens = s.tokens ∧
    (Parser.validateIdentifier s t).currentTokenIndex = s.currentTokenIndex ∧
    ∃ ds, (Parser.validateIdentifier s t).errors = s.errors ++ ds := by
  unfold Parser.validateIdentifier
  cases Parser.identDiag t with
  | some d => exact ⟨rfl, rfl, [d], rfl⟩
  | none => exact ⟨rfl, rfl, [], by simp⟩

/-- A successful `consume` advances the cursor by one and changes
nothing else. -/
theorem Parser.consume_ok (s : ParserState) (ty : TokenType) (m : String)
    (tk : Token) (s' : ParserState)
    (h : Parser.consume s ty m = .ok (tk, s')) :
    s'.tokens = s.tokens ∧ s'.currentTokenIndex = s.currentTokenIndex + 1 ∧
    s'.errors = s.errors := by
  unfold Parser.consume at h
  split at h
  · next hc =>
    have hEnd := Parser.not_atEnd_of_check s ty hc
    have h2 : s' = (Parser.advance s).2 := by
      have := congrArg Prod.snd (Except.ok.inj h)
      exact this.symm
    rw [h2, Parser.advance_of_not_atEnd s hEnd]
    exact ⟨rfl, rfl, rfl⟩
  · exact absurd h (by simp)

/-- A failed `consume` records exactly one diagnostic and does not move. -/
theorem Parser.consume_err (s : ParserState) (ty : TokenType) (m : String)
    (e : ParserState) (h : Parser.consume s ty m = .error e) :
    e.tokens = s.tokens ∧ e.currentTokenIndex = s.currentTokenIndex ∧
    (∃ d, e.errors = s.errors ++ [d]) ∧ Parser.isAtEnd e = Parser.isAtEnd s := by
  unfold Parser.consume at h
  split at h
  · exact absurd h (by simp)
  · have h2 : e = Parser.throwError s (Parser.peek s) m none := (Except.error.inj h).symm
    subst h2
    exact ⟨rfl, rfl, ⟨_, rfl⟩, rfl⟩

/-- A failed `parsePrimary` is exactly the missing-expression throw. -/
theorem Parser.parsePrimary_err (s : ParserState) (e : ParserState)
    (h : Parser.parsePrimary s = .error e) :
    e = Parser.throwError s (Parser.peek s) "Se esperaba una expresión válida" none := by
  unfold Parser.parsePrimary at h
  split at h
  · exact absurd h (by simp)
  · split at h
    · exact absurd h (by simp)
    · split at h
      · exact absurd h (by simp)
      · split at h
        · exact absurd h (by simp)
        · split at h
          · exact absurd h (by simp)
          · split at h
            · exact absurd h (by simp)
            · exact (Except.error.inj h).symm

/-- Progress shape shared by the literal branches of `parsePrimary`. -/
theorem Parser.advance_snd_fields (s : ParserState) (ty : TokenType)
    (hc : Parser.check s ty = true) :
    (Parser.advance s).2.tokens = s.tokens ∧
    (Parser.advance s).2.currentTokenIndex = s.currentTokenIndex + 1 ∧
    (Parser.advance s).2.errors = s.errors := by
  rw [Parser.advance_of_not_atEnd s (Parser.not_atEnd_of_check s ty hc)]
  exact ⟨rfl, rfl, rfl⟩

/-- A successful `parsePrimary` consumes exactly one token and can only
append identifier diagnostics. -/
theorem Parser.parsePrimary_ok (s : ParserState) (n : ASTNode) (s' : ParserState)
    (h : Parser.parsePrimary s = .ok (n, s')) :
    s'.tokens = s.tokens ∧ s'.currentTokenIndex = s.currentTokenIndex + 1 ∧
    ∃ ds, s'.errors = s.errors ++ ds := by
  unfold Parser.parsePrimary at h
  by_cases h1 : Parser.check s .IDENTIFIER = true
  · rw [if_pos h1] at h
    have h2 : s' = Parser.validateIdentifier (Parser.advance s).2 (Parser.advance s).1 :=
      (congrArg Prod.snd (Except.ok.inj h)).symm
    obtain ⟨ht, hi, ds, he⟩ :=
      Parser.validateIdentifier_fields (Parser.advance s).2 (Parser.advance s).1
    obtain ⟨at1, at2, at3⟩ := Parser.advance_snd_fields s _ h1
    rw [h2]
    exact ⟨ht.trans at1, hi.trans at2, ds, he.trans (by rw [at3])⟩
  · rw [if_neg h1] at h
    by_cases h2 : Parser.check s .INTEGER = true
    · rw [if_pos h2] at h
      have hs : s' = (Parser.advance s).2 := (congrArg Prod.snd (Except.ok.inj h)).symm
      obtain ⟨at1, at2, at3⟩ := Parser.advance_snd_fields s _ h2
      rw [hs]
      exact ⟨at1, at2, [], by simp [at3]⟩
    · rw [if_neg h2] at h
      by_cases h3 : Parser.check s .FLOAT = true
      · rw [if_pos h3] at h
        have hs : s' = (Parser.advance s).2 := (congrArg Prod.snd (Except.ok.inj h)).symm
        obtain ⟨at1, at2, at3⟩ := Parser.advance_snd_fields s _ h3
        rw [hs]
        exact ⟨at1, at2, [], by simp [at3]⟩
      · rw [if_neg h3] at h
        by_cases h4 : Parser.check s .STRING = true
        · rw [if_pos h4] at h
          have hs : s' = (Parser.advance s).2 := (congrArg Prod.snd (Except.ok.inj h)).symm
          obtain ⟨at1, at2, at3⟩ := Parser.advance_snd_fields s _ h4
          rw [hs]
          exact ⟨at1, at2, [], by simp [at3]⟩
        · rw [if_neg h4] at h
          by_cases h5 : Parser.check s .BOOLEAN = true
          · rw [if_pos h5] at h
            have hs : s' = (Parser.advance s).2 := (congrArg Prod.snd (Except.ok.inj h)).symm
            obtain ⟨at1, at2, at3⟩ := Parser.advance_snd_fields s _ h5
            rw [hs]
            exact ⟨at1, at2, [], by simp [at3]⟩
          · rw [if_neg h5] at h
            by_cases h6 : Parser.check s .NONE = true
            · rw [if_pos h6] at h
              have hs : s' = (Parser.advance s).2 := (congrArg Prod.snd (Except.ok.inj h)).symm
              obtain ⟨at1, at2, at3⟩ := Parser.advance_snd_fields s _ h6
              rw [hs]
              exact ⟨at1, at2, [], by simp [at3]⟩
            · rw [if_neg h6] at h
              exact absurd h (by simp)

/-- Field effects of `throwError` (record one diagnostic, stay put). -/
theorem Parser.throwError_fields (s : ParserState) (t : Token) (m : String)
    (sg : Option String) :
    (Parser.throwError s t m sg).tokens = s.tokens ∧
    (Parser.throwError s t m sg).currentTokenIndex = s.currentTokenIndex ∧
    (∃ d, (Parser.throwError s t m sg).errors = s.errors ++ [d]) ∧
    Parser.isAtEnd (Parser.throwError s t m sg) = Parser.isAtEnd s :=
  ⟨rfl, rfl, ⟨_, rfl⟩, rfl⟩

/-- Field effects of `reportError`. -/
theorem Parser.reportError_fields (s : ParserState) (t : Token) (m sg : String) :
    (Parser.reportError s t m sg).tokens = s.tokens ∧
    (Parser.reportError s t m sg).currentTokenIndex = s.currentTokenIndex ∧
    (∃ d, (Parser.reportError s t m sg).errors = s.errors ++ [d]) ∧
    Parser.isAtEnd (Parser.reportError s t m sg) = Parser.isAtEnd s :=
  ⟨rfl, rfl, ⟨_, rfl⟩, rfl⟩

/-- A successful `parseAssignment` strictly advances the cursor and only
appends diagnostics. -/
theorem Parser.parseAssignment_ok (s : ParserState) (n : ASTNode) (s4 : ParserState)
    (h : Parser.parseAssignment s = .ok (n, s4)) :
    s4.tokens = s.tokens ∧ s.currentTokenIndex < s4.currentTokenIndex ∧
    ∃ ds, s4.errors = s.errors ++ ds := by
  unfold Parser.parseAssignment at h
  split at h
  · exact absurd h (by simp)
  · next identifier s1 heq1 =>
    obtain ⟨c1t, c1i, c1e⟩ := Parser.consume_ok s _ _ _ _ heq1
    obtain ⟨v1t, v1i, ds0, v1e⟩ := Parser.validateIdentifier_fields s1 identifier
    dsimp only at h
    split at h
    · exact absurd h (by simp)
    · next tk2 s3 heq2 =>
      obtain ⟨c2t, c2i, c2e⟩ := Parser.consume_ok _ _ _ _ _ heq2
      split at h
      · exact absurd h (by simp)
      · next val s5 heq3 =>
        unfold Parser.parseExpression at heq3
        obtain ⟨pt, pi, ds1, pe⟩ := Parser.parsePrimary_ok _ _ _ heq3
        have hs4 : s4 = s5 := (congrArg Prod.snd (Except.ok.inj h)).symm
        subst hs4
        refine ⟨pt.trans (c2t.trans (v1t.trans c1t)), ?_, ?_⟩
        · omega
        · refine ⟨ds0 ++ ds1, ?_⟩
          rw [pe, c2e, v1e, c1e, List.append_assoc]

/-- A failed `parseAssignment` records at least one diagnostic and either
strictly advanced or failed on its very first token without moving. -/
theorem Parser.parseAssignment_err (s sE : ParserState)
    (h : Parser.parseAssignment s = .error sE) :
    sE.tokens = s.tokens ∧ (∃ ds, ds ≠ [] ∧ sE.errors = s.errors ++ ds) ∧
    (s.currentTokenIndex < sE.currentTokenIndex ∨
      (sE.currentTokenIndex = s.currentTokenIndex ∧
       Parser.isAtEnd sE = Parser.isAtEnd s)) := by
  unfold Parser.parseAssignment at h
  split at h
  · next e heq =>
    have hse : sE = e := (Except.error.inj h).symm
    subst hse
    obtain ⟨t1, i1, ⟨d, e1⟩, a1⟩ := Parser.consume_err s _ _ _ heq
    exact ⟨t1, ⟨[d], by simp, e1⟩, Or.inr ⟨i1, a1⟩⟩
  · next identifier s1 heq1 =>
    obtain ⟨c1t, c1i, c1e⟩ := Parser.consume_ok s _ _ _ _ heq1
    obtain ⟨v1t, v1i, ds0, v1e⟩ := Parser.validateIdentifier_fields s1 identifier
    dsimp only at h
    split at h
    · next e heq2 =>
      have hse : sE = e := (Except.error.inj h).symm
      subst hse
      obtain ⟨t2, i2, ⟨d, e2⟩, a2⟩ := Parser.consume_err _ _ _ _ heq2
      refine ⟨t2.trans (v1t.trans c1t), ⟨ds0 ++ [d], by simp, ?_⟩, Or.inl (by omega)⟩
      rw [e2, v1e, c1e, List.append_assoc]
    · next tk2 s3 heq2 =>
      obtain ⟨c2t, c2i, c2e⟩ := Parser.consume_ok _ _ _ _ _ heq2
      split at h
      · next e heq3 =>
        have hse : sE = e := (Except.error.inj h).symm
        subst hse
        unfold Parser.parseExpression at heq3
        have he := Parser.parsePrimary_err _ _ heq3
        obtain ⟨t3, i3, ⟨d, e3⟩, a3⟩ := Parser.throwError_fields s3 (Parser.peek s3)
          "Se esperaba una expresión válida" none
        rw [he]
        refine ⟨t3.trans (c2t.trans (v1t.trans c1t)),
          ⟨ds0 ++ [d], by simp, ?_⟩, Or.inl (by omega)⟩
        rw [e3, c2e, v1e, c1e, List.append_assoc]
      · exact absurd h (by simp)

/-- Every hard failure of `parseStatement` has already recorded at least
one fresh diagnostic, never rewinds the cursor, and when it did not move
the cursor the failing state is still not at end (so recovery's leading
`advance()` makes strict progress). -/
theorem Parser.parseStatement_err (s sE : ParserState)
    (h : Parser.parseStatement s = .error sE) :
    sE.tokens = s.tokens ∧ (∃ ds, ds ≠ [] ∧ sE.errors = s.errors ++ ds) ∧
    (s.currentTokenIndex < sE.currentTokenIndex ∨
      (sE.currentTokenIndex = s.currentTokenIndex ∧ Parser.isAtEnd sE = false)) := by
  unfold Parser.parseStatement at h
  by_cases h1 : Parser.isAtEnd s = true
  · rw [if_pos h1] at h
    exact absurd h (by simp)
  · rw [if_neg h1] at h
    have h1f : Parser.isAtEnd s = false := by
      cases hb : Parser.isAtEnd s
      · rfl
      · exact absurd hb h1
    dsimp only at h
    by_cases h2 : (Parser.peek s).type = TokenType.ERROR
    · rw [if_pos h2] at h
      exact absurd h (by simp)
    · rw [if_neg h2] at h
      by_cases h3 : (Parser.check s .IDENTIFIER && Parser.checkNext s .ASSIGNMENT_OPERATOR) = true
      · rw [if_pos h3] at h
        split at h
        · next e heq =>
          have hse : sE = e := (Except.error.inj h).symm
          subst hse
          obtain ⟨ht, hds, hdisj⟩ := Parser.parseAssignment_err s _ heq
          refine ⟨ht, hds, ?_⟩
          rcases hdisj with hlt | ⟨hi, hE⟩
          · exact Or.inl hlt
          · exact Or.inr ⟨hi, hE.trans h1f⟩
        · exact absurd h (by simp)
      · rw [if_neg h3] at h
        by_cases h4 : (Parser.check s .IDENTIFIER || Parser.check s .INTEGER ||
            Parser.check s .FLOAT || Parser.check s .STRING ||
            Parser.check s .BOOLEAN || Parser.check s .NONE) = true
        · rw [if_pos h4] at h
          -- resolve the statement-start validation state
          by_cases h5 : Parser.check s .IDENTIFIER = true
          · rw [if_pos h5] at h
            obtain ⟨v1t, v1i, ds0, v1e⟩ :=
              Parser.validateIdentifier_fields s (Parser.peek s)
            split at h
            · next e heq =>
              have hse : sE = e := (Except.error.inj h).symm
              subst hse
              unfold Parser.parseExpression at heq
              have he := Parser.parsePrimary_err _ _ heq
              subst he
              obtain ⟨t3, i3, ⟨d, e3⟩, a3⟩ := Parser.throwError_fields
                (Parser.validateIdentifier s (Parser.peek s))
                (Parser.peek (Parser.validateIdentifier s (Parser.peek s)))
                "Se esperaba una expresión válida" none
              refine ⟨t3.trans v1t, ⟨ds0 ++ [d], by simp, ?_⟩, Or.inr ⟨by omega, ?_⟩⟩
              · rw [e3, v1e, List.append_assoc]
              · rw [a3, Parser.isAtEnd_congr _ s v1t v1i]
                exact h1f
            · next expr s2 heq =>
              unfold Parser.parseExpression at heq
              obtain ⟨pt, pi, ds1, pe⟩ := Parser.parsePrimary_ok _ _ _ heq
              by_cases h6 : Parser.check s2 .ASSIGNMENT_OPERATOR = true
              · rw [if_pos h6] at h
                have hse : sE = Parser.throwError s2 (Parser.peek s2)
                    "No se puede asignar a un literal"
                    (some "La asignación debe tener un identificador válido a la izquierda del =") :=
                  (Except.error.inj h).symm
                subst hse
                obtain ⟨t3, i3, ⟨d, e3⟩, a3⟩ := Parser.throwError_fields s2 (Parser.peek s2)
                  "No se puede asignar a un literal"
                  (some "La asignación debe tener un identificador válido a la izquierda del =")
                refine ⟨t3.trans (pt.trans v1t), ⟨ds0 ++ ds1 ++ [d], by simp, ?_⟩,
                  Or.inl (by omega)⟩
                rw [e3, pe, v1e]
                simp [List.append_assoc]
              · rw [if_neg h6] at h
                exact absurd h (by simp)
          · rw [if_neg h5] at h
            split at h
            · next e heq =>
              have hse : sE = e := (Except.error.inj h).symm
              subst hse
              unfold Parser.parseExpression at heq
              have he := Parser.parsePrimary_err _ _ heq
              subst he
              obtain ⟨t3, i3, ⟨d, e3⟩, a3⟩ := Parser.throwError_fields s (Parser.peek s)
                "Se esperaba una expresión válida" none
              exact ⟨t3, ⟨[d], by simp, e3⟩, Or.inr ⟨i3, a3.trans h1f⟩⟩
            · next expr s2 heq =>
              unfold Parser.parseExpression at heq
              obtain ⟨pt, pi, ds1, pe⟩ := Parser.parsePrimary_ok _ _ _ heq
              by_cases h6 : Parser.check s2 .ASSIGNMENT_OPERATOR = true
              · rw [if_pos h6] at h
                have hse : sE = Parser.throwError s2 (Parser.peek s2)
                    "No se puede asignar a un literal"
                    (some "La asignación debe tener un identificador válido a la izquierda del =") :=
                  (Except.error.inj h).symm
                subst hse
                obtain ⟨t3, i3, ⟨d, e3⟩, a3⟩ := Parser.throwError_fields s2 (Parser.peek s2)
                  "No se puede asignar a un literal"
                  (some "La asignación debe tener un identificador válido a la izquierda del =")
                refine ⟨t3.trans pt, ⟨ds1 ++ [d], by simp, ?_⟩, Or.inl (by omega)⟩
                rw [e3, pe]
                simp [List.append_assoc]
              · rw [if_neg h6] at h
                exact absurd h (by simp)
        · rw [if_neg h4] at h
          by_cases h7 : Parser.check s .KEYWORD = true
          · rw [if_pos h7] at h
            have hse : sE = Parser.throwError s (Parser.peek s)
                ("Palabra clave '" ++ (Parser.peek s).value ++ "' usada incorrectamente")
                (some "Las palabras clave no pueden usarse como identificadores o en este contexto") :=
              (Except.error.inj h).symm
            subst hse
            obtain ⟨t3, i3, ⟨d, e3⟩, a3⟩ := Parser.throwError_fields s (Parser.peek s)
              ("Palabra clave '" ++ (Parser.peek s).value ++ "' usada incorrectamente")
              (some "Las palabras clave no pueden usarse como identificadores o en este contexto")
            exact ⟨t3, ⟨[d], by simp, e3⟩, Or.inr ⟨i3, a3.trans h1f⟩⟩
          · rw [if_neg h7] at h
            have hse : sE = Parser.throwError s (Parser.peek s)
                "Se esperaba una declaración o expresión válida" none :=
              (Except.error.inj h).symm
            subst hse
            obtain ⟨t3, i3, ⟨d, e3⟩, a3⟩ := Parser.throwError_fields s (Parser.peek s)
              "Se esperaba una declaración o expresión válida" none
            exact ⟨t3, ⟨[d], by simp, e3⟩, Or.inr ⟨i3, a3.trans h1f⟩⟩

/-- A normal return of `parseStatement` from a not-at-end state strictly
advances the cursor and only appends diagnostics. -/
theorem Parser.parseStatement_ok (s : ParserState) (o : Option ASTNode)
    (s2 : ParserState) (h : Parser.parseStatement s = .ok (o, s2))
    (hEnd : Parser.isAtEnd s = false) :
    s2.tokens = s.tokens ∧ s.currentTokenIndex < s2.currentTokenIndex ∧
    ∃ ds, s2.errors = s.errors ++ ds := by
  unfold Parser.parseStatement at h
  rw [if_neg (by simp [hEnd])] at h
  dsimp only at h
  by_cases h2 : (Parser.peek s).type = TokenType.ERROR
  · rw [if_pos h2] at h
    have hs2 : s2 = (Parser.advance (Parser.reportError s (Parser.peek s)
        (Parser.lexMessage (Parser.peek s))
        (strOr ((Parser.peek s).error.bind ErrorInfo.suggestion)
          "Revise el carácter en esta posición"))).2 :=
      (congrArg Prod.snd (Except.ok.inj h)).symm
    obtain ⟨rt, ri, ⟨d, re⟩, ra⟩ := Parser.reportError_fields s (Parser.peek s)
      (Parser.lexMessage (Parser.peek s))
      (strOr ((Parser.peek s).error.bind ErrorInfo.suggestion)
        "Revise el carácter en esta posición")
    have hadv := Parser.advance_of_not_atEnd _ (ra.trans hEnd)
    rw [hs2, hadv]
    dsimp only
    exact ⟨rt, by omega, [d], re⟩
  · rw [if_neg h2] at h
    by_cases h3 : (Parser.check s .IDENTIFIER && Parser.checkNext s .ASSIGNMENT_OPERATOR) = true
    · rw [if_pos h3] at h
      split at h
      · exact absurd h (by simp)
      · next val s' heq =>
        have hs2 : s2 = s' := (congrArg Prod.snd (Except.ok.inj h)).symm
        subst hs2
        exact Parser.parseAssignment_ok s _ _ heq
    · rw [if_neg h3] at h
      by_cases h4 : (Parser.check s .IDENTIFIER || Parser.check s .INTEGER ||
          Parser.check s .FLOAT || Parser.check s .STRING ||
          Parser.check s .BOOLEAN || Parser.check s .NONE) = true
      · rw [if_pos h4] at h
        by_cases h5 : Parser.check s .IDENTIFIER = true
        · rw [if_pos h5] at h
          obtain ⟨v1t, v1i, ds0, v1e⟩ :=
            Parser.validateIdentifier_fields s (Parser.peek s)
          split at h
          · exact absurd h (by simp)
          · next expr s' heq =>
            unfold Parser.parseExpression at heq
            obtain ⟨pt, pi, ds1, pe⟩ := Parser.parsePrimary_ok _ _ _ heq
            by_cases h6 : Parser.check s' .ASSIGNMENT_OPERATOR = true
            · rw [if_pos h6] at h
              exact absurd h (by simp)
            · rw [if_neg h6] at h
              have hs2 : s2 = s' := (congrArg Prod.snd (Except.ok.inj h)).symm
              subst hs2
              refine ⟨pt.trans v1t, by omega, ds0 ++ ds1, ?_⟩
              rw [pe, v1e, List.append_assoc]
        · rw [if_neg h5] at h
          split at h
          · exact absurd h (by simp)
          · next expr s' heq =>
            unfold Parser.parseExpression at heq
            obtain ⟨pt, pi, ds1, pe⟩ := Parser.parsePrimary_ok _ _ _ heq
            by_cases h6 : Parser.check s' .ASSIGNMENT_OPERATOR = true
            · rw [if_pos h6] at h
              exact absurd h (by simp)
            · rw [if_neg h6] at h
              have hs2 : s2 = s' := (congrArg Prod.snd (Except.ok.inj h)).symm
              subst hs2
              exact ⟨pt, by omega, ds1, pe⟩
      · rw [if_neg h4] at h
        by_cases h7 : Parser.check s .KEYWORD = true
        · rw [if_pos h7] at h
          exact absurd h (by simp)
        · rw [if_neg h7] at h
          exact absurd h (by simp)

/-- Newline skipping preserves tokens and errors and never rewinds. -/
theorem Parser.skipNewlinesF_fields : ∀ (fuel : Nat) (s : ParserState),
    (Parser.skipNewlinesF fuel s).tokens = s.tokens ∧
    s.currentTokenIndex ≤ (Parser.skipNewlinesF fuel s).currentTokenIndex ∧
    (Parser.skipNewlinesF fuel s).errors = s.errors := by
  intro fuel
  induction fuel with
  | zero => intro s; exact ⟨rfl, Nat.le_refl _, rfl⟩
  | succ n ih =>
    intro s
    by_cases hc : Parser.check s .NEWLINE = true
    · have hstep : Parser.skipNewlinesF (n + 1) s =
          Parser.skipNewlinesF n (Parser.advance s).2 := by
        simp [Parser.skipNewlinesF, hc]
      rw [hstep]
      obtain ⟨t, i, e⟩ := ih (Parser.advance s).2
      exact ⟨t.trans (Parser.advance_tokens s),
        Nat.le_trans (Parser.advance_index_le s) i,
        e.trans (Parser.advance_errors s)⟩
    · have hstep : Parser.skipNewlinesF (n + 1) s = s := by
        simp [Parser.skipNewlinesF, hc]
      rw [hstep]
      exact ⟨rfl, Nat.le_refl _, rfl⟩

/-- Wrapper version of the previous lemma. -/
theorem Parser.skipNewlines_fields (s : ParserState) :
    (Parser.skipNewlines s).tokens = s.tokens ∧
    s.currentTokenIndex ≤ (Parser.skipNewlines s).currentTokenIndex ∧
    (Parser.skipNewlines s).errors = s.errors :=
  Parser.skipNewlinesF_fields _ s

/-- When the current token is not a newline, skipping is the identity. -/
theorem Parser.skipNewlines_id (s : ParserState)
    (h : Parser.check s .NEWLINE = false) :
    Parser.skipNewlines s = s := by
  unfold Parser.skipNewlines
  cases hf : s.tokens.length + 1 - s.currentTokenIndex with
  | zero => rfl
  | succ n => simp [Parser.skipNewlinesF, h]

/-- Recovery preserves tokens and errors, never rewinds, and makes
strict progress from a not-at-end state. -/
theorem Parser.synchronize_fields (s : ParserState) :
    (Parser.synchronize s).tokens = s.tokens ∧
    s.currentTokenIndex ≤ (Parser.synchronize s).currentTokenIndex ∧
    (Parser.isAtEnd s = false →
      s.currentTokenIndex < (Parser.synchronize s).currentTokenIndex) ∧
    (Parser.synchronize s).errors = s.errors := by
  unfold Parser.synchronize
  have hinv : ((Parser.advance s).2).tokens.length <
      ((Parser.advance s).2).currentTokenIndex +
        (((Parser.advance s).2).tokens.length + 1 -
          ((Parser.advance s).2).currentTokenIndex) := by
    omega
  obtain ⟨b, ht, hle, he⟩ := Parser.syncLoop_spec _ (Parser.advance s).2 hinv
  refine ⟨ht.trans (Parser.advance_tokens s), ?_, ?_,
    he.trans (Parser.advance_errors s)⟩
  · exact Nat.le_trans (Parser.advance_index_le s) hle
  · intro hend
    have hidx : (Parser.advance s).2.currentTokenIndex = s.currentTokenIndex + 1 := by
      rw [Parser.advance_of_not_atEnd s hend]
    omega

/-- One normal loop iteration (newline skips included) makes strict
cursor progress and preserves the token list. -/
theorem Parser.loop_ok_progress (s : ParserState) (o : Option ASTNode)
    (s2 : ParserState)
    (hEnd1 : Parser.isAtEnd (Parser.skipNewlines s) = false)
    (h : Parser.parseStatement (Parser.skipNewlines s) = .ok (o, s2)) :
    (Parser.skipNewlines s2).tokens = s.tokens ∧
    s.currentTokenIndex < (Parser.skipNewlines s2).currentTokenIndex := by
  obtain ⟨t1, i1, e1⟩ := Parser.skipNewlines_fields s
  obtain ⟨pt, pi, ds, pe⟩ := Parser.parseStatement_ok _ _ _ h hEnd1
  obtain ⟨t2, i2, e2⟩ := Parser.skipNewlines_fields s2
  exact ⟨t2.trans (pt.trans t1), by omega⟩

/-- One recovering loop iteration makes strict cursor progress and
preserves the token list. -/
theorem Parser.loop_err_progress (s sE : ParserState)
    (h : Parser.parseStatement (Parser.skipNewlines s) = .error sE) :
    (Parser.synchronize sE).tokens = s.tokens ∧
    s.currentTokenIndex < (Parser.synchronize sE).currentTokenIndex := by
  obtain ⟨t1, i1, e1⟩ := Parser.skipNewlines_fields s
  obtain ⟨pt, _, hdisj⟩ := Parser.parseStatement_err _ _ h
  obtain ⟨st, sle, sstrict, se⟩ := Parser.synchronize_fields sE
  refine ⟨st.trans (pt.trans t1), ?_⟩
  rcases hdisj with hlt | ⟨hi, hE⟩
  · omega
  · have := sstrict hE
    omega

/-- Any two sufficient fuels give `parseLoopF` the same result. -/
theorem Parser.parseLoopF_fuel_irrel : ∀ (f1 f2 : Nat) (s : ParserState),
    s.tokens.length < s.currentTokenIndex + f1 →
    s.tokens.length < s.currentTokenIndex + f2 →
    Parser.parseLoopF f1 s = Parser.parseLoopF f2 s := by
  intro f1
  induction f1 with
  | zero =>
    intro f2 s h1 h2
    have hA : Parser.isAtEnd s = true := Parser.isAtEnd_of_le s (by omega)
    cases f2 with
    | zero => rfl
    | succ m => simp [Parser.parseLoopF, hA]
  | succ n ih =>
    intro f2 s h1 h2
    cases f2 with
    | zero =>
      have hA : Parser.isAtEnd s = true := Parser.isAtEnd_of_le s (by omega)
      simp [Parser.parseLoopF, hA]
    | succ m =>
      by_cases hA : Parser.isAtEnd s = true
      · simp [Parser.parseLoopF, hA]
      · have hAf : Parser.isAtEnd s = false := by
          cases hb : Parser.isAtEnd s
          · rfl
          · exact absurd hb hA
        by_cases hA1 : Parser.isAtEnd (Parser.skipNewlines s) = true
        · simp [Parser.parseLoopF, hAf, hA1]
        · have hA1f : Parser.isAtEnd (Parser.skipNewlines s) = false := by
            cases hb : Parser.isAtEnd (Parser.skipNewlines s)
            · rfl
            · exact absurd hb hA1
          cases hps : Parser.parseStatement (Parser.skipNewlines s) with
          | ok r =>
            obtain ⟨o, s2⟩ := r
            obtain ⟨ht, hlt⟩ := Parser.loop_ok_progress s o s2 hA1f hps
            have hrec := ih m (Parser.skipNewlines s2)
              (by rw [ht]; omega) (by rw [ht]; omega)
            simp [Parser.parseLoopF, hAf, hA1f, hps, hrec]
          | error sE =>
            obtain ⟨ht, hlt⟩ := Parser.loop_err_progress s sE hps
            have hrec := ih m (Parser.synchronize sE)
              (by rw [ht]; omega) (by rw [ht]; omega)
            simp [Parser.parseLoopF, hAf, hA1f, hps, hrec]

/-- C1: `parse` always returns normally — its result is assembled from
the statements and final state of the (provably sufficient-fuel) loop —
and every hard failure raised inside statement derivation has already
recorded at least one fresh diagnostic and is answered by the top-level
loop with recovery (`synchronize`) followed by continuing the loop. -/
theorem parse_returns_best_effort :
    (∀ ts : List Token, ∃ stmts sF,
        Parser.parseLoop (Parser.initState ts) = (stmts, sF) ∧
        Parser.parse ts = (if stmts.length > 0
          then some (ASTNode.mk "Program" none (some stmts) none) else none,
          sF.errors)) ∧
    (∀ s sE : ParserState, Parser.parseStatement s = Except.error sE →
        ∃ ds, ds ≠ [] ∧ sE.errors = s.errors ++ ds) ∧
    (∀ s sE : ParserState, Parser.parseStatement s = Except.error sE →
        Parser.skipNewlines s = s → Parser.isAtEnd s = false →
        Parser.parseLoop s = Parser.parseLoop (Parser.synchronize sE)) := by
  refine ⟨?_, ?_, ?_⟩
  · intro ts
    exact ⟨(Parser.parseLoop (Parser.initState ts)).1,
      (Parser.parseLoop (Parser.initState ts)).2, rfl, rfl⟩
  · intro s sE h
    exact (Parser.parseStatement_err s sE h).2.1
  · intro s sE h hskip hEnd
    unfold Parser.parseLoop
    have hlt : s.currentTokenIndex < s.tokens.length :=
      Parser.lt_length_of_not_atEnd s hEnd
    obtain ⟨k, hk⟩ : ∃ k, s.tokens.length + 1 - s.currentTokenIndex = k + 1 :=
      ⟨s.tokens.length - s.currentTokenIndex, by omega⟩
    rw [hk]
    have hstep : Parser.parseLoopF (k + 1) s =
        Parser.parseLoopF k (Parser.synchronize sE) := by
      simp [Parser.parseLoopF, hEnd, hskip, h]
    rw [hstep]
    obtain ⟨ht, hlt2⟩ := Parser.loop_err_progress s sE (by rw [hskip]; exact h)
    exact Parser.parseLoopF_fuel_irrel k _ (Parser.synchronize sE)
      (by rw [ht]; omega) (by rw [ht]; omega)

/-- Witness for C1 at a keyword-at-statement-start failure. -/
theorem parse_returns_best_effort_witness :
    (∃ stmts sF,
      Parser.parseLoop (Parser.initState [⟨.KEYWORD, "class", 1, 1, none⟩,
        ⟨.EOF, "EOF", 1, 6, none⟩]) = (stmts, sF) ∧
      Parser.parse [⟨.KEYWORD, "class", 1, 1, none⟩, ⟨.EOF, "EOF", 1, 6, none⟩] =
        (if stmts.length > 0
         then some (ASTNode.mk "Program" none (some stmts) none) else none,
         sF.errors)) ∧
    (∃ ds, ds ≠ [] ∧
      (Parser.throwError (⟨[⟨.KEYWORD, "class", 1, 1, none⟩, ⟨.EOF, "EOF", 1, 6, none⟩], 0, []⟩ : ParserState)
        (⟨.KEYWORD, "class", 1, 1, none⟩ : Token)
        "Palabra clave 'class' usada incorrectamente"
        (some "Las palabras clave no pueden usarse como identificadores o en este contexto")).errors =
      ([] : List ParserError) ++ ds) ∧
    Parser.parseLoop (⟨[⟨.KEYWORD, "class", 1, 1, none⟩, ⟨.EOF, "EOF", 1, 6, none⟩], 0, []⟩ : ParserState) =
      Parser.parseLoop (Parser.synchronize
        (Parser.throwError (⟨[⟨.KEYWORD, "class", 1, 1, none⟩, ⟨.EOF, "EOF", 1, 6, none⟩], 0, []⟩ : ParserState)
          (⟨.KEYWORD, "class", 1, 1, none⟩ : Token)
          "Palabra clave 'class' usada incorrectamente"
          (some "Las palabras clave no pueden usarse como identificadores o en este contexto"))) := by
  refine ⟨parse_returns_best_effort.1 _, ?_, ?_⟩
  · exact parse_returns_best_effort.2.1
      (⟨[⟨.KEYWORD, "class", 1, 1, none⟩, ⟨.EOF, "EOF", 1, 6, none⟩], 0, []⟩ : ParserState)
      (Parser.throwError (⟨[⟨.KEYWORD, "class", 1, 1, none⟩, ⟨.EOF, "EOF", 1, 6, none⟩], 0, []⟩ : ParserState)
        (⟨.KEYWORD, "class", 1, 1, none⟩ : Token)
        "Palabra clave 'class' usada incorrectamente"
        (some "Las palabras clave no pueden usarse como identificadores o en este contexto"))
      (by rfl)
  · exact parse_returns_best_effort.2.2
      (⟨[⟨.KEYWORD, "class", 1, 1, none⟩, ⟨.EOF, "EOF", 1, 6, none⟩], 0, []⟩ : ParserState)
      (Parser.throwError (⟨[⟨.KEYWORD, "class", 1, 1, none⟩, ⟨.EOF, "EOF", 1, 6, none⟩], 0, []⟩ : ParserState)
        (⟨.KEYWORD, "class", 1, 1, none⟩ : Token)
        "Palabra clave 'class' usada incorrectamente"
        (some "Las palabras clave no pueden usarse como identificadores o en este contexto"))
      (by rfl) (by rfl) (by rfl)

/-- With sufficient fuel, an all-`ERROR` token suffix yields no
statements and one recorded lexical diagnostic per remaining token. -/
theorem Parser.allError_loop : ∀ (fuel : Nat) (s : ParserState),
    s.tokens.length < s.currentTokenIndex + fuel →
    (∀ t ∈ s.tokens, t.type = .ERROR) →
    (Parser.parseLoopF fuel s).1 = [] ∧
    ((Parser.parseLoopF fuel s).2).errors.length =
      s.errors.length + (s.tokens.length - s.currentTokenIndex) := by
  intro fuel
  induction fuel with
  | zero =>
    intro s h hall
    have hstep : Parser.parseLoopF 0 s = ([], s) := rfl
    rw [hstep]
    refine ⟨rfl, ?_⟩
    dsimp only
    omega
  | succ n ih =>
    intro s h hall
    have hchkgen : ∀ (u : ParserState), u.tokens = s.tokens →
        Parser.check u .NEWLINE = false := by
      intro u hu
      by_cases hl : u.currentTokenIndex < u.tokens.length
      · unfold Parser.check
        by_cases hAu : Parser.isAtEnd u = true
        · rw [if_pos hAu]
        · rw [if_neg hAu]
          have hpk := Parser.peek_of_lt u hl
          have hmem : u.tokens[u.currentTokenIndex] ∈ s.tokens := by
            rw [← hu]
            exact List.getElem_mem hl
          rw [hpk]
          simp [hall _ hmem]
      · have hAu : Parser.isAtEnd u = true := Parser.isAtEnd_of_le u (by omega)
        unfold Parser.check
        rw [if_pos hAu]
    by_cases hA : Parser.isAtEnd s = true
    · have hstep : Parser.parseLoopF (n + 1) s = ([], s) := by
        simp [Parser.parseLoopF, hA]
      rw [hstep]
      have hle : s.tokens.length ≤ s.currentTokenIndex := by
        by_contra hc
        push_neg at hc
        have hpeek := Parser.peek_of_lt s hc
        have herr := hall _ (List.getElem_mem hc)
        unfold Parser.isAtEnd at hA
        rw [hpeek, herr] at hA
        exact absurd hA (by simp)
      refine ⟨rfl, ?_⟩
      dsimp only
      omega
    · have hAf : Parser.isAtEnd s = false := by
        cases hb : Parser.isAtEnd s
        · rfl
        · exact absurd hb hA
      have hlt := Parser.lt_length_of_not_atEnd s hAf
      have herr : (Parser.peek s).type = .ERROR := by
        rw [Parser.peek_of_lt s hlt]
        exact hall _ (List.getElem_mem hlt)
      have hskip := Parser.skipNewlines_id s (hchkgen s rfl)
      have hps : Parser.parseStatement s = .ok (none,
          (Parser.advance (Parser.reportError s (Parser.peek s)
            (Parser.lexMessage (Parser.peek s))
            (strOr ((Parser.peek s).error.bind ErrorInfo.suggestion)
              "Revise el carácter en esta posición"))).2) := by
        unfold Parser.parseStatement
        rw [if_neg (by simp [hAf])]
        dsimp only
        rw [if_pos herr]
      obtain ⟨rt, ri, ⟨d, re⟩, ra⟩ := Parser.reportError_fields s (Parser.peek s)
        (Parser.lexMessage (Parser.peek s))
        (strOr ((Parser.peek s).error.bind ErrorInfo.suggestion)
          "Revise el carácter en esta posición")
      have hadv := Parser.advance_of_not_atEnd _ (ra.trans hAf)
      have hs2t : ((Parser.advance (Parser.reportError s (Parser.peek s)
          (Parser.lexMessage (Parser.peek s))
          (strOr ((Parser.peek s).error.bind ErrorInfo.suggestion)
            "Revise el carácter en esta posición"))).2).tokens = s.tokens := by
        rw [hadv]
        exact rt
      have hs2i : ((Parser.advance (Parser.reportError s (Parser.peek s)
          (Parser.lexMessage (Parser.peek s))
          (strOr ((Parser.peek s).error.bind ErrorInfo.suggestion)
            "Revise el carácter en esta posición"))).2).currentTokenIndex =
          s.currentTokenIndex + 1 := by
        rw [hadv]
        dsimp only
        omega
      have hs2e : ((Parser.advance (Parser.reportError s (Parser.peek s)
          (Parser.lexMessage (Parser.peek s))
          (strOr ((Parser.peek s).error.bind ErrorInfo.suggestion)
            "Revise el carácter en esta posición"))).2).errors.length =
          s.errors.length + 1 := by
        rw [hadv]
        dsimp only
        rw [re]
        simp
      have hskip2 := Parser.skipNewlines_id _ (hchkgen _ hs2t)
      have hstep : Parser.parseLoopF (n + 1) s =
          Parser.parseLoopF n ((Parser.advance (Parser.reportError s (Parser.peek s)
            (Parser.lexMessage (Parser.peek s))
            (strOr ((Parser.peek s).error.bind ErrorInfo.suggestion)
              "Revise el carácter en esta posición"))).2) := by
        simp [Parser.parseLoopF, hAf, hskip, hps, hskip2]
      rw [hstep]
      obtain ⟨ih1, ih2⟩ := ih _ (by rw [hs2t, hs2i]; omega)
        (by rw [hs2t]; exact hall)
      refine ⟨ih1, ?_⟩
      rw [ih2, hs2t, hs2i, hs2e]
      omega

/-- C7: `parse` returns an absent tree exactly when zero statements were
derived; otherwise the tree is one `Program` node whose children are
exactly the derived statements in order, together with the recorded
error list; and an all-error input yields an absent tree plus a
non-empty error list. -/
theorem parse_ast_absent_iff_no_statements :
    (∀ ts : List Token,
      ((Parser.parse ts).1 = none ↔ (Parser.parseLoop (Parser.initState ts)).1 = []) ∧
      ((Parser.parseLoop (Parser.initState ts)).1 ≠ [] →
        (Parser.parse ts).1 = some (ASTNode.mk "Program" none
          (some (Parser.parseLoop (Parser.initState ts)).1) none)) ∧
      (Parser.parse ts).2 = ((Parser.parseLoop (Parser.initState ts)).2).errors) ∧
    (∀ ts : List Token, ts ≠ [] → (∀ t ∈ ts, t.type = .ERROR) →
      (Parser.parse ts).1 = none ∧ (Parser.parse ts).2 ≠ []) := by
  have hp : ∀ ts : List Token, Parser.parse ts =
      (if (Parser.parseLoop (Parser.initState ts)).1.length > 0
       then some (ASTNode.mk "Program" none
         (some (Parser.parseLoop (Parser.initState ts)).1) none)
       else none,
       ((Parser.parseLoop (Parser.initState ts)).2).errors) := fun ts => rfl
  refine ⟨?_, ?_⟩
  · intro ts
    rw [hp ts]
    cases hl : (Parser.parseLoop (Parser.initState ts)).1 with
    | nil => simp
    | cons a l => simp
  · intro ts hne hall
    have hfilter : Parser.filterTokens ts = ts := by
      unfold Parser.filterTokens
      apply List.filter_eq_self.mpr
      intro t ht
      simp [hall t ht]
    have hall2 : ∀ t ∈ (Parser.initState ts).tokens, t.type = .ERROR := by
      intro t ht
      apply hall
      have hts : (Parser.initState ts).tokens = ts := hfilter
      rw [hts] at ht
      exact ht
    have hinv : (Parser.initState ts).tokens.length <
        (Parser.initState ts).currentTokenIndex +
          ((Parser.initState ts).tokens.length + 1 -
            (Parser.initState ts).currentTokenIndex) := by
      have hi0 : (Parser.initState ts).currentTokenIndex = 0 := rfl
      omega
    obtain ⟨h1, h2⟩ := Parser.allError_loop
      ((Parser.initState ts).tokens.length + 1 - (Parser.initState ts).currentTokenIndex)
      (Parser.initState ts) hinv hall2
    have hw : Parser.parseLoop (Parser.initState ts) =
        Parser.parseLoopF ((Parser.initState ts).tokens.length + 1 -
          (Parser.initState ts).currentTokenIndex) (Parser.initState ts) := rfl
    constructor
    · rw [hp ts, hw, h1]
      simp
    · rw [hp ts, hw]
      dsimp only
      intro hnil
      have hlen0 : ((Parser.parseLoopF ((Parser.initState ts).tokens.length + 1 -
          (Parser.initState ts).currentTokenIndex) (Parser.initState ts)).2).errors.length = 0 := by
        rw [hnil]
        rfl
      rw [h2] at hlen0
      have hlen : (Parser.initState ts).tokens.length = ts.length := by
        show (Parser.filterTokens ts).length = ts.length
        rw [hfilter]
      have htsne : 0 < ts.length := List.length_pos.mpr hne
      have he0 : (Parser.initState ts).errors.length = 0 := rfl
      have hi0 : (Parser.initState ts).currentTokenIndex = 0 := rfl
      omega

/-- Witness for C7: a one-integer input yields a present Program tree,
and a one-lexical-error input yields an absent tree and one diagnostic. -/
theorem parse_ast_absent_iff_no_statements_witness :
    (Parser.parse [⟨.INTEGER, "1", 1, 1, none⟩]).1 =
      some (ASTNode.mk "Program" none
        (some (Parser.parseLoop (Parser.initState [⟨.INTEGER, "1", 1, 1, none⟩])).1) none) ∧
    (Parser.parse [⟨.ERROR, "$", 1, 1, none⟩]).1 = none ∧
    (Parser.parse [⟨.ERROR, "$", 1, 1, none⟩]).2 ≠ [] := by
  refine ⟨(parse_ast_absent_iff_no_statements.1 _).2.1 ?_, ?_, ?_⟩
  · have hx : (Parser.parseLoop (Parser.initState [⟨.INTEGER, "1", 1, 1, none⟩])).1 =
        [ASTNode.mk "IntegerLiteral" (some "1") none (some ⟨.INTEGER, "1", 1, 1, none⟩)] := rfl
    rw [hx]
    simp
  · exact (parse_ast_absent_iff_no_statements.2 _ (by decide) (by decide)).1
  · exact (parse_ast_absent_iff_no_statements.2 _ (by decide) (by decide)).2

/-- When the error-reporting core produces a non-`ERROR` token, the
legacy core produces the identical token and state. -/
theorem lexStepCore_agree (s : LexState)
    (h : (Lexer.getNextTokenCore s).1.type ≠ .ERROR) :
    LegacyLexer.getNextTokenCore s = Lexer.getNextTokenCore s := by
  unfold Lexer.getNextTokenCore at h ⊢
  unfold LegacyLexer.getNextTokenCore
  cases hm : firstMatchCore s.remaining with
  | none =>
    rw [hm] at h
    dsimp only at h
    simp [Lexer.createErrorToken] at h
  | some tv =>
    obtain ⟨ty, v⟩ := tv
    rw [hm] at h
    dsimp only at h ⊢
    cases hv : (if ty = TokenType.STRING
        then Lexer.validateString (String.mk v) else none) with
    | some e =>
      rw [hv] at h
      dsimp only at h
      simp [Lexer.createErrorToken] at h
    | none => rfl

/-- When the error-reporting `getNextToken` produces a non-`ERROR`
token, the legacy `getNextToken` agrees. -/
theorem lexStep_agree (s : LexState)
    (h : (Lexer.getNextToken s).1.type ≠ .ERROR) :
    LegacyLexer.getNextToken s = Lexer.getNextToken s := by
  unfold Lexer.getNextToken at h ⊢
  unfold LegacyLexer.getNextToken
  cases hm : matchWs s.remaining with
  | none =>
    rw [hm] at h
    dsimp only at h ⊢
    exact lexStepCore_agree _ h
  | some v =>
    rw [hm] at h
    dsimp only at h ⊢
    exact lexStepCore_agree _ h

/-- On any scan segment during which the error-reporting loop records no
errors, the two lexer loops produce the same tokens and final state. -/
theorem tokenizeLoop_agree : ∀ (fuel : Nat) (s : LexState),
    (Lexer.tokenizeLoop fuel s).2.1 = [] →
    LegacyLexer.tokenizeLoop fuel s =
      ((Lexer.tokenizeLoop fuel s).1, (Lexer.tokenizeLoop fuel s).2.2) := by
  intro fuel
  induction fuel with
  | zero => intro s _; rfl
  | succ n ih =>
    intro s h
    by_cases hr : s.remaining.isEmpty = true
    · have e1 : Lexer.tokenizeLoop (n + 1) s = ([], [], s) := by
        simp [Lexer.tokenizeLoop, hr]
      have e2 : LegacyLexer.tokenizeLoop (n + 1) s = ([], s) := by
        simp [LegacyLexer.tokenizeLoop, hr]
      rw [e1, e2]
    · rcases hg : Lexer.getNextToken s with ⟨t, s'⟩
      by_cases hterr : t.type = .ERROR
      · exfalso
        have hx : (Lexer.tokenizeLoop (n + 1) s).2.1 =
            t :: (Lexer.tokenizeLoop n s').2.1 := by
          simp [Lexer.tokenizeLoop, hr, hg, hterr]
        rw [hx] at h
        simp at h
      · have hstep := lexStep_agree s (by rw [hg]; exact hterr)
        by_cases hunk : t.type = .UNKNOWN
        · have e1 : Lexer.tokenizeLoop (n + 1) s = Lexer.tokenizeLoop n s' := by
            simp [Lexer.tokenizeLoop, hr, hg, hunk]
          have e2 : LegacyLexer.tokenizeLoop (n + 1) s =
              LegacyLexer.tokenizeLoop n s' := by
            simp [LegacyLexer.tokenizeLoop, hr, hstep, hg, hunk]
          rw [e1, e2]
          rw [e1] at h
          exact ih s' h
        · have e1 : Lexer.tokenizeLoop (n + 1) s =
              (Lexer.reclassify t :: (Lexer.tokenizeLoop n s').1,
               (Lexer.tokenizeLoop n s').2.1, (Lexer.tokenizeLoop n s').2.2) := by
            simp [Lexer.tokenizeLoop, hr, hg, hunk, hterr]
          have e2 : LegacyLexer.tokenizeLoop (n + 1) s =
              (Lexer.reclassify t :: (LegacyLexer.tokenizeLoop n s').1,
               (LegacyLexer.tokenizeLoop n s').2) := by
            simp [LegacyLexer.tokenizeLoop, hr, hstep, hg, hunk]
          rw [e1] at h ⊢
          dsimp only at h ⊢
          have hrec := ih s' h
          rw [e2, hrec]

/-- C10 (amended): on every input for which the error-reporting lexer
reports no lexical errors, the legacy lexer's `tokenize` produces
exactly the `tokens` component of the error-reporting lexer's
`tokenize`; the two implementations differ only on inputs with lexical
errors (where the legacy lexer drops unrecognized characters and
accepts invalid strings instead of emitting `ERROR` tokens). -/
theorem lexers_agree_when_no_errors (input : String)
    (h : (Lexer.tokenize input).2 = []) :
    LegacyLexer.tokenize input = (Lexer.tokenize input).1 := by
  unfold Lexer.tokenize at h ⊢
  unfold LegacyLexer.tokenize
  dsimp only at h ⊢
  rw [tokenizeLoop_agree (input.length + 1) ⟨input.toList, 1, 1⟩ h]

/-- Witness for the amended C10 at the error-free input `x = 1`. -/
theorem lexers_agree_when_no_errors_witness :
    (Lexer.tokenize "x = 1").2 = [] ∧
    LegacyLexer.tokenize "x = 1" = (Lexer.tokenize "x = 1").1 :=
  ⟨rfl, lexers_agree_when_no_errors "x = 1" rfl⟩

/-- C10 (counterexample): on the input `$` the two lexers produce
different token streams — the legacy lexer silently drops the
unrecognized character (its `UNKNOWN` token is filtered out) while the
error-reporting lexer keeps an `ERROR` token in the stream. -/
theorem legacy_lexer_differs_on_dollar :
    LegacyLexer.tokenize "$" = [⟨.EOF, "EOF", 1, 2, none⟩] ∧
    (Lexer.tokenize "$").1 =
      [⟨.ERROR, "$", 1, 1,
        some ⟨"Carácter no reconocido: '$'",
          some "Caracteres válidos: letras, números, operadores (+, -, *, /, etc.) y símbolos"⟩⟩,
       ⟨.EOF, "EOF", 1, 2, none⟩] ∧
    LegacyLexer.tokenize "$" ≠ (Lexer.tokenize "$").1 := by
  refine ⟨rfl, rfl, by decide⟩
